import Mathlib

/-!
Verification development for the coffee lot lineage tracker.

The repository consists of two Python implementations of the same design:
`fabric-lineage-tracker-fixed.py` (class `LotLineageTracker`, the recursive
bidirectional tracer with caches) and `backend_processor.py`
(class `CoffeeLotLineageTracker`, the index builder, the 5-step join chain
that resolves a sale contract to consumption lots, and the statistics
aggregator).  Both are shallowly embedded below.

Modelling conventions:
* a data row (a Python dict, as produced by `row.asDict()` or
  `df.to_dict('records')`) is an association list `Row` of column name to
  cell value;
* cell values `Val` are strings, exact integers (every numeric datum in the
  spec scenarios is an integer; Python floats are modelled at their exact
  integer points), or `nil` for Python `None`;
* Python `set` iteration is modelled as first-insertion order;
* the recursion of `trace_lot_origin` carries `depth` and stops when
  `depth >= max_depth`; here the equivalent counter
  `remaining = max_depth - depth` is carried instead, so the stop condition
  becomes `remaining = 0` and the recursion is structural;
* Python `str.upper` is modelled on the ASCII letters, which is all the key
  data exercises.
-/

namespace CoffeeTrace

/-- A Python cell value: a string, an exact integer, or `None`. -/
inductive Val where
  | str (s : String)
  | num (n : Int)
  | nil
deriving DecidableEq

/-- A data row: a Python dict from column name to cell value. -/
abbrev Row := List (String × Val)

/-- First-match association lookup, the semantics of a Python dict read
(keys are unique in the actual data, so first match is the dict entry). -/
def alookup {α β : Type} [DecidableEq α] : List (α × β) → α → Option β
  | [], _ => Option.none
  | (k, v) :: rest, a => if k = a then some v else alookup rest a

/-- Python `row.get(key, default)`. -/
def rowGet (r : Row) (k : String) (d : Val) : Val :=
  (alookup r k).getD d

/-- Python truthiness of a cell value. -/
def truthy : Val → Bool
  | .str s => s ≠ ""
  | .num n => n ≠ 0
  | .nil => false

/-- Decimal rendering of an integer, the value of Python `str` on `int`. -/
def intStr (n : Int) : String :=
  if n < 0 then "-" ++ Nat.repr n.natAbs else Nat.repr n.natAbs

/-- Python `str` on a cell value. -/
def pyStr : Val → String
  | .str s => s
  | .num n => intStr n
  | .nil => "None"

/-- The whitespace characters stripped by Python `str.strip()`. -/
def isPySpace (c : Char) : Bool :=
  c = ' ' || c = '\t' || c = '\n' || c = '\x0d' || c = '\x0b' || c = '\x0c'

/-- Python `str.strip()` on a character list. -/
def stripChars (l : List Char) : List Char :=
  ((l.dropWhile isPySpace).reverse.dropWhile isPySpace).reverse

/-- Python `str.strip()`. -/
def pyStrip (s : String) : String :=
  ⟨stripChars s.data⟩

/-- The lowercase-to-uppercase table of the ASCII letters. -/
def lowerUpper : List (Char × Char) :=
  [('a', 'A'), ('b', 'B'), ('c', 'C'), ('d', 'D'), ('e', 'E'),
   ('f', 'F'), ('g', 'G'), ('h', 'H'), ('i', 'I'), ('j', 'J'),
   ('k', 'K'), ('l', 'L'), ('m', 'M'), ('n', 'N'), ('o', 'O'),
   ('p', 'P'), ('q', 'Q'), ('r', 'R'), ('s', 'S'), ('t', 'T'),
   ('u', 'U'), ('v', 'V'), ('w', 'W'), ('x', 'X'), ('y', 'Y'),
   ('z', 'Z')]

/-- ASCII uppercasing of one character, the Python `str.upper` action on the
letters the key data uses. -/
def upChar (c : Char) : Char :=
  (alookup lowerUpper c).getD c

/-- Python `str.upper()`. -/
def pyUpper (s : String) : String :=
  ⟨s.data.map upChar⟩

/-- The worker of `dedupFirst`, carrying the set of elements already seen. -/
def dedupGo {α : Type} [DecidableEq α] : List α → List α → List α
  | _, [] => []
  | seen, a :: rest =>
      if a ∈ seen then dedupGo seen rest else a :: dedupGo (a :: seen) rest

/-- De-duplication keeping the first occurrence of each element; the model of
building a Python `set` and listing it in insertion order. -/
def dedupFirst {α : Type} [DecidableEq α] (l : List α) : List α :=
  dedupGo [] l

/-! Date arithmetic for `LotLineageTracker.parse_excel_date`.  The Python
code adds `timedelta(days=v)` to `datetime(1899, 12, 30)` and prints
`%Y-%m-%d`; the civil-from-day-number conversion below is the standard
proleptic Gregorian algorithm.  Day number 0 is 1970-01-01, and 1899-12-30
is day number -25569. -/

/-- Convert a day number (0 = 1970-01-01) to a `(year, month, day)` triple of
the proleptic Gregorian calendar. -/
def civilFromDays (z0 : Int) : Int × Int × Int :=
  let z := z0 + 719468
  let era := z.fdiv 146097
  let doe := z.fmod 146097
  let yoe := (doe - doe / 1460 + doe / 36524 - doe / 146096) / 365
  let y := yoe + era * 400
  let doy := doe - (365 * yoe + yoe / 4 - yoe / 100)
  let mp := (5 * doy + 2) / 153
  let d := doy - (153 * mp + 2) / 5 + 1
  let m := mp + (if mp < 10 then 3 else -9)
  (y + (if m ≤ 2 then 1 else 0), m, d)

/-- Zero-pad a number to two digits, as `%m` / `%d` do. -/
def pad2 (n : Nat) : String :=
  if n < 10 then "0" ++ Nat.repr n else Nat.repr n

/-- `strftime('%Y-%m-%d')` as the program's glibc platform renders it:
`%m` and `%d` zero-padded to two digits, `%Y` unpadded (year 1 prints as
`1`; every year this data reaches has four digits anyway). -/
def fmtDate (y m d : Int) : String :=
  Nat.repr y.toNat ++ "-" ++ pad2 m.toNat ++ "-" ++ pad2 d.toNat

/-- The numeric value of a decimal digit character. -/
def digitVal (c : Char) : Option Nat :=
  if '0' ≤ c ∧ c ≤ '9' then some (c.toNat - 48) else Option.none

/-- Whether a year is a Gregorian leap year. -/
def isLeap (y : Int) : Bool :=
  (y.emod 4 == 0 && y.emod 100 != 0) || y.emod 400 == 0

/-- Days in a month of a given year. -/
def daysInMonth (y : Int) (m : Nat) : Nat :=
  match m with
  | 1 => 31 | 2 => if isLeap y then 29 else 28 | 3 => 31 | 4 => 30
  | 5 => 31 | 6 => 30 | 7 => 31 | 8 => 31 | 9 => 30 | 10 => 31
  | 11 => 30 | 12 => 31
  | _ => 0

/-- Python `s.split('T')[0]`: the prefix of the string before the first
`T`. -/
def upToT (l : List Char) : List Char :=
  l.takeWhile (fun c => c ≠ 'T')

/-! `datetime.fromisoformat`, as the program's CPython runtime implements
it (`Modules/_datetimemodule.c`): the definitions below transliterate
`_find_isoformat_datetime_separator`, `parse_isoformat_date`,
`_parse_isoformat_time` and `parse_hh_mm_ss_ff` index by index, loops
included, so that every quirk of the C parser (basic-format and ISO-week
dates, a free-form one-character separator, `Z` suffixes, comma fractions,
the loop's early returns at the scan boundary) is carried over.  Reads are
over the string's characters, every read past the end yielding the C
buffer's terminating NUL; this agrees with the byte-level C parser because
an accepted string is ASCII everywhere except possibly at the one
free-form separator position, whose full character the C code skips. -/

/-- A character read of the C parser: the character at `i`, or the
terminating NUL when `i` is past the end. -/
def charAt (l : List Char) (i : Nat) : Char :=
  l.getD i (Char.ofNat 0)

/-- An ASCII decimal digit. -/
def isDig (c : Char) : Bool :=
  decide (48 ≤ c.toNat ∧ c.toNat ≤ 57)

/-- `parse_digits`: exactly `n` ASCII digits starting at `pos`, as a
number together with the position after them. -/
def parse_digits (l : List Char) : Nat → Nat → Nat → Option (Nat × Nat)
  | pos, 0, acc => some (acc, pos)
  | pos, n + 1, acc =>
      if isDig (charAt l pos) then
        parse_digits l (pos + 1) n (acc * 10 + ((charAt l pos).toNat - 48))
      else Option.none

/-- The timezone scan of `_parse_isoformat_time`, a `do`-`while` from `i`
that stops at the first `Z`, `+` or `-` (returning its index) and
otherwise runs to `tend` (returning the index after the last character
examined).  The third argument is the remaining iteration count
`tend - i`, making the recursion structural. -/
def tzScanAux (l : List Char) (tend : Nat) : Nat → Nat → Nat
  | 0, i =>
      if charAt l i == 'Z' || charAt l i == '+' || charAt l i == '-' then i
      else i + 1
  | fuel + 1, i =>
      if charAt l i == 'Z' || charAt l i == '+' || charAt l i == '-' then i
      else if i + 1 < tend then tzScanAux l tend fuel (i + 1)
      else i + 1

/-- The index of the timezone sign inside `[tstart, tend)`, per the scan
above. -/
def tzScan (l : List Char) (tstart tend : Nat) : Nat :=
  tzScanAux l tend (tend - tstart) tstart

/-- Advance past ASCII digits, at most `n` of them (the truncation of
fraction digits beyond the first six). -/
def skipDigits (l : List Char) : Nat → Nat → Nat
  | 0, p => p
  | n + 1, p => if isDig (charAt l p) then skipDigits l n (p + 1) else p

/-- Control outcome of one component iteration of `parse_hh_mm_ss_ff`:
parse failure; an early return out of the loop (`rv1` records whether the
character just read was a non-NUL boundary character); a jump to the
fraction section at `p`; or the next iteration at `p` under the separator
convention `hasSep`. -/
inductive CompOut where
  | err : CompOut
  | ret (rv1 : Bool) : CompOut
  | frac (p : Nat) : CompOut
  | next (p : Nat) (hasSep : Bool) : CompOut

/-- One iteration of the `HH[:MM[:SS]]` loop of `parse_hh_mm_ss_ff`: two
digits, then the following character decides between returning (when the
next position reaches the boundary `tend`; the character read there must
be a one-byte read, so a multi-byte character — which in C straddles the
boundary — fails instead), a `:` separator, a fraction dot or comma,
re-reading the character as the next component's first digit (the
no-separator convention), and a malformed-separator failure. -/
def hmsComp (l : List Char) (tend : Nat) (first hasSep0 : Bool) (p : Nat) :
    Nat × CompOut :=
  match parse_digits l p 2 0 with
  | Option.none => (0, CompOut.err)
  | some (v, p1) =>
      let c := charAt l p1
      let p2 := p1 + 1
      let hasSep := if first then c == ':' else hasSep0
      if p2 ≥ tend then
        if c.toNat ≤ 127 then (v, CompOut.ret (c != Char.ofNat 0))
        else (v, CompOut.err)
      else if c == ':' then
        if hasSep then (v, CompOut.next p2 hasSep) else (v, CompOut.err)
      else if c == '.' || c == ',' then (v, CompOut.frac p2)
      else if !hasSep then (v, CompOut.next p1 hasSep)
      else (v, CompOut.err)

/-- The fraction section of `parse_hh_mm_ss_ff`: up to six digits scaled
to microseconds, then any further digits consumed and discarded; the flag
records that the scan stopped on a non-NUL character (fatal for a
standalone clock reading or a timezone reading, tolerated right before a
timezone sign; a NUL — the string's end or an embedded NUL byte — ends the
reading benignly, as it ends the C scan). -/
def hmsFrac (l : List Char) (tend p : Nat) : Option (Bool × Nat) :=
  let toParse := min (tend - p) 6
  match parse_digits l p toParse 0 with
  | Option.none => Option.none
  | some (us0, p1) =>
      let pAfter := skipDigits l (tend - p1) p1
      some (charAt l pAfter != Char.ofNat 0, us0 * 10 ^ (6 - toParse))

/-- `parse_hh_mm_ss_ff` on `[tstart, tend)`: hour, minute, second and
microsecond, with the flag true when the reading did not consume cleanly
up to `tend` — the loop returned early on a non-NUL boundary character, or
a non-digit remained after the fraction (admissible for a clock reading
followed by a timezone sign, a malformed-timezone error otherwise, and
ignored before a final `Z`). -/
def parse_hh_mm_ss_ff (l : List Char) (tstart tend : Nat) :
    Option (Bool × Nat × Nat × Nat × Nat) :=
  match hmsComp l tend true false tstart with
  | (_, CompOut.err) => Option.none
  | (h, CompOut.ret rv) => some (rv, h, 0, 0, 0)
  | (h, CompOut.frac p) =>
      match hmsFrac l tend p with
      | Option.none => Option.none
      | some (rv, us) => some (rv, h, 0, 0, us)
  | (h, CompOut.next p hs) =>
      match hmsComp l tend false hs p with
      | (_, CompOut.err) => Option.none
      | (m, CompOut.ret rv) => some (rv, h, m, 0, 0)
      | (m, CompOut.frac p2) =>
          match hmsFrac l tend p2 with
          | Option.none => Option.none
          | some (rv, us) => some (rv, h, m, 0, us)
      | (m, CompOut.next p2 hs2) =>
          match hmsComp l tend false hs2 p2 with
          | (_, CompOut.err) => Option.none
          | (s, CompOut.ret rv) => some (rv, h, m, s, 0)
          | (s, CompOut.frac p3) =>
              match hmsFrac l tend p3 with
              | Option.none => Option.none
              | some (rv, us) => some (rv, h, m, s, us)
          | (s, CompOut.next p3 _) =>
              match hmsFrac l tend p3 with
              | Option.none => Option.none
              | some (rv, us) => some (rv, h, m, s, us)

/-- `_parse_isoformat_time` on `[tstart, tend)`: a clock reading up to the
sign scan's stop, then an optional timezone — `Z` followed by a NUL (the
string's end or an embedded NUL, beyond which the C check never reads), or
a sign followed by an offset reading.  Returns hour, minute, second,
microsecond and the optional signed offset in microseconds. -/
def parse_isoformat_time (l : List Char) (tstart tend : Nat) :
    Option (Nat × Nat × Nat × Nat × Option Int) :=
  let tzpos := tzScan l tstart tend
  match parse_hh_mm_ss_ff l tstart tzpos with
  | Option.none => Option.none
  | some (rv1, h, m, s, us) =>
      if tzpos == tend then
        if rv1 then Option.none else some (h, m, s, us, Option.none)
      else if charAt l tzpos == 'Z' then
        if charAt l (tzpos + 1) == Char.ofNat 0 then some (h, m, s, us, some 0)
        else Option.none
      else
        let sign : Int := if charAt l tzpos == '-' then -1 else 1
        match parse_hh_mm_ss_ff l (tzpos + 1) tend with
        | Option.none => Option.none
        | some (rvt, th, tm, ts, tus) =>
            if rvt then Option.none
            else some (h, m, s, us,
              some (sign * (((th * 3600 + tm * 60 + ts) * 1000000 + tus : Nat) : Int)))

/-- `_find_isoformat_datetime_separator`: the index of the (free-form)
one-character separator; `none` is the in-scan rejection of short
`YYYY-W` strings.  In the ambiguous week forms, extended `YYYY-Www-D`
puts the separator at 8 when a digit stands at 10, and basic `YYYYWww`
scans the digit run from index 7: a run ending before index 9 puts the
separator right after it, a longer run is read as `YYYYWwwD` exactly when
it ends on an odd index. -/
def find_sep (l : List Char) : Option Nat :=
  if l.length == 7 then some 7
  else if charAt l 4 == '-' then
    if charAt l 5 == 'W' then
      if l.length < 8 then Option.none
      else if l.length > 8 && charAt l 8 == '-' then
        if l.length == 9 then Option.none
        else if l.length > 10 && isDig (charAt l 10) then some 8
        else some 10
      else some 8
    else some 10
  else if charAt l 4 == 'W' then
    let idx := skipDigits l (l.length - 7) 7
    if idx < 9 then some idx
    else if idx % 2 == 0 then some 7
    else some 8
  else some 8

/-- Days before January 1 of Gregorian year `y ≥ 1` (day 1 is 0001-01-01):
CPython's `days_before_year`. -/
def days_before_year (y : Nat) : Nat :=
  (y - 1) * 365 + (y - 1) / 4 - (y - 1) / 100 + (y - 1) / 400

/-- The ordinal of the Monday of ISO week 1 of year `y`: CPython's
`iso_week1_monday`. -/
def week1_monday (y : Nat) : Nat :=
  let fd := days_before_year y + 1
  let fw := (fd + 6) % 7
  if fw > 3 then fd + 7 - fw else fd - fw

/-- `iso_to_ymd`: an ISO year–week–day triple to a calendar date.  Week 53
exists only in years beginning on a Thursday, or on a Wednesday in leap
years.  For ISO year 0 the C code forms a nonpositive ordinal whose
conversion never reaches a constructible date (every `0000-W` string
raises, checked against the interpreter), so year 0 is rejected here
directly; for positive years the C ordinal arithmetic is exact and is
computed through `civilFromDays` (ordinal 719163 is 1970-01-01). -/
def iso_to_ymd (y w d : Nat) : Option (Int × Int × Int) :=
  if y == 0 then Option.none
  else
    let fw := (days_before_year y + 1 + 6) % 7
    let wOk : Bool :=
      (decide (1 ≤ w) && decide (w ≤ 52)) ||
      (w == 53 && (fw == 3 || (fw == 2 && isLeap (y : Int))))
    if wOk && decide (1 ≤ d) && decide (d ≤ 7) then
      some (civilFromDays
        (((week1_monday y + (w - 1) * 7 + (d - 1) : Nat) : Int) - 719163))
    else Option.none

/-- `parse_isoformat_date`: four year digits, an optional `-` fixing the
separator convention, then either `W` with week (and optionally day)
digits converted from the ISO calendar, or month and day digits
(range-checked later, as the `datetime` constructor does).  Only the week
arm consults the length `seplen`; the calendar arm reads its characters
wherever they lie, as the C code does. -/
def parse_isoformat_date (l : List Char) (seplen : Nat) :
    Option (Int × Int × Int) :=
  match parse_digits l 0 4 0 with
  | Option.none => Option.none
  | some (year, p1) =>
      let usesSep := charAt l p1 == '-'
      let p2 := if usesSep then p1 + 1 else p1
      if charAt l p2 == 'W' then
        match parse_digits l (p2 + 1) 2 0 with
        | Option.none => Option.none
        | some (week, p3) =>
            if p3 < seplen then
              if usesSep && charAt l p3 != '-' then Option.none
              else
                let pd := if usesSep then p3 + 1 else p3
                match parse_digits l pd 1 0 with
                | Option.none => Option.none
                | some (dayno, _) => iso_to_ymd year week dayno
            else iso_to_ymd year week 1
      else
        match parse_digits l p2 2 0 with
        | Option.none => Option.none
        | some (month, p3) =>
            if usesSep && charAt l p3 != '-' then Option.none
            else
              let pd := if usesSep then p3 + 1 else p3
              match parse_digits l pd 2 0 with
              | Option.none => Option.none
              | some (day, _) => some ((year : Int), (month : Int), (day : Int))

/-- `datetime.fromisoformat`, its `%Y-%m-%d`-relevant content: strings of
fewer than seven characters are rejected, the separator is located, the
date parsed, any time portion parsed, and the constructors' range checks
applied — year 1 to 9999 of a real calendar day, hour to second within
clock range, timezone offset strictly under 24 hours in magnitude.
Returns the calendar date, which is all `strftime('%Y-%m-%d')` prints. -/
def fromisoformat (l : List Char) : Option (Int × Int × Int) :=
  if l.length < 7 then Option.none
  else
    match find_sep l with
    | Option.none => Option.none
    | some sl =>
        match parse_isoformat_date l sl with
        | Option.none => Option.none
        | some (y, m, d) =>
            let timePartOk : Bool :=
              if sl < l.length then
                match parse_isoformat_time l (sl + 1) l.length with
                | Option.none => false
                | some (h, mi, s, _, tz) =>
                    decide (h ≤ 23) && decide (mi ≤ 59) && decide (s ≤ 59) &&
                    (match tz with
                     | Option.none => true
                     | some off => decide (off.natAbs < 86400000000))
              else true
            if timePartOk ∧ 1 ≤ y ∧ y ≤ 9999 ∧ 1 ≤ m ∧ m ≤ 12 ∧
                1 ≤ d ∧ d ≤ (daysInMonth y m.toNat : Int) then
              some (y, m, d)
            else Option.none

/-- `LotLineageTracker.parse_excel_date`: `None` and the empty string map to
the empty string; a numeric value is a day count from 1899-12-30 and is
printed `%Y-%m-%d` when the resulting date is representable by `datetime`
(year 1 to 9999); a string whose portion before any `T` parses under
`fromisoformat` is reformatted to its date; everything the `try` block
cannot parse falls back to `str(date_value)`. -/
def parse_excel_date (v : Val) : String :=
  match v with
  | .nil => ""
  | .num n =>
      let t := civilFromDays (n - 25569)
      if 1 ≤ t.1 ∧ t.1 ≤ 9999 then fmtDate t.1 t.2.1 t.2.2 else intStr n
  | .str s =>
      if s = "" then ""
      else
        match fromisoformat (upToT s.data) with
        | some (y, m, d) => fmtDate y m d
        | Option.none => s

/-! The recursive tracer `LotLineageTracker` of
`fabric-lineage-tracker-fixed.py`. -/

/-- `df_production.filter(df_production["Lot No_"] == lot_no)`. -/
def lotFilter (df : List Row) (lot : Val) : List Row :=
  df.filter (fun r => rowGet r "Lot No_" .nil == lot)

/-- `df_production.filter(df_production["Prod_ Order No_"] == prod_order)`. -/
def prodFilter (df : List Row) (po : Val) : List Row :=
  df.filter (fun r => rowGet r "Prod_ Order No_" .nil == po)

/-- The tracker's two memoising caches, `lot_records_cache` and
`prod_order_cache`, in insertion order. -/
structure Sess where
  lotCache : List (Val × List Row)
  prodCache : List (Val × List Row)
deriving DecidableEq

/-- A freshly initialised tracker has empty caches. -/
def emptySess : Sess := ⟨[], []⟩

/-- `LotLineageTracker.get_lot_records`: serve from the cache, else filter
the frame and memoise the result. -/
def get_lot_records (df : List Row) (s : Sess) (lot : Val) : List Row × Sess :=
  match alookup s.lotCache lot with
  | some r => (r, s)
  | Option.none =>
      let r := lotFilter df lot
      (r, { s with lotCache := s.lotCache ++ [(lot, r)] })

/-- `LotLineageTracker.get_prod_order_records`. -/
def get_prod_order_records (df : List Row) (s : Sess) (po : Val) : List Row × Sess :=
  match alookup s.prodCache po with
  | some r => (r, s)
  | Option.none =>
      let r := prodFilter df po
      (r, { s with prodCache := s.prodCache ++ [(po, r)] })

/-- `LotLineageTracker.get_process_types_for_lot`: the stripped string forms
of the truthy `Process Type` cells of the lot's records, de-duplicated; the
sentinel `["Not Found"]` when the lot has no records, `["Unknown"]` when none
of its records has a truthy process type. -/
def get_process_types_for_lot (df : List Row) (s : Sess) (lot : Val) :
    List String × Sess :=
  let out := get_lot_records df s lot
  if out.1.isEmpty then (["Not Found"], out.2)
  else
    let ts := dedupFirst (out.1.filterMap (fun r =>
      let pt := rowGet r "Process Type" (.str "Unknown")
      if truthy pt then some (pyStrip (pyStr pt)) else Option.none))
    (if ts.isEmpty then ["Unknown"] else ts, out.2)

/-- A value of the node's `details` dict: a raw cell value, a formatted date
string, or one of the two fixed-shape sub-dicts the code writes under the
`transfer` and `purchase` keys. -/
inductive DVal where
  | v (x : Val)
  | ds (x : String)
  | transferRec (quantity : Val) (date : String) (dest : Val)
  | purchaseRec (quantity : Val) (date : String)
deriving DecidableEq

/-- The node's `details` dict. -/
abbrev Details := List (String × DVal)

/-- Python dict assignment `d[k] = x`: replace in place, else append. -/
def detSet : Details → String → DVal → Details
  | [], k, x => [(k, x)]
  | (k', x') :: rest, k, x =>
      if k' = k then (k, x) :: rest else (k', x') :: detSet rest k x

mutual
/-- A lineage-tree node, the dict built by `trace_lot_origin`: `lot_no`,
the optional `warning`, `process_types`, the `sources` and `destinations`
child lists, the `details` dict, the optional `is_origin` mark (absent keys
modelled as `false` / `none`), and the `relationship` label the parent
assigns after the recursive call returns. -/
inductive Node where
  | mk : (lotNo : Val) → (warning : Option String) → (processTypes : List String) →
      (sources : NodeList) → (destinations : NodeList) → (details : Details) →
      (isOrigin : Bool) → (relationship : Option String) → Node
/-- A list of lineage-tree nodes. -/
inductive NodeList where
  | nil : NodeList
  | cons : Node → NodeList → NodeList
end

def Node.lotNo : Node → Val
  | .mk l _ _ _ _ _ _ _ => l

def Node.warning : Node → Option String
  | .mk _ w _ _ _ _ _ _ => w

def Node.processTypes : Node → List String
  | .mk _ _ p _ _ _ _ _ => p

def Node.sources : Node → NodeList
  | .mk _ _ _ s _ _ _ _ => s

def Node.destinations : Node → NodeList
  | .mk _ _ _ _ d _ _ _ => d

def Node.details : Node → Details
  | .mk _ _ _ _ _ dt _ _ => dt

def Node.isOrigin : Node → Bool
  | .mk _ _ _ _ _ _ o _ => o

def Node.relationship : Node → Option String
  | .mk _ _ _ _ _ _ _ r => r

def NodeList.push : NodeList → Node → NodeList
  | .nil, n => .cons n .nil
  | .cons m l, n => .cons m (l.push n)

def NodeList.isNil : NodeList → Bool
  | .nil => true
  | .cons _ _ => false

def NodeList.toList : NodeList → List Node
  | .nil => []
  | .cons n l => n :: l.toList

/-- `source_node['relationship'] = ...`: the label the parent writes into a
returned child node. -/
def setRel (n : Node) (r : String) : Node :=
  match n with
  | .mk l w p s d dt o _ => .mk l w p s d dt o (some r)

/-- The early-return leaf of `trace_lot_origin` for an already-visited lot or
an exhausted depth budget: a warning, the lot's process types, no children,
an empty details dict. -/
def warnLeaf (lot : Val) (w : String) (pts : List String) : Node :=
  .mk lot (some w) pts .nil .nil [] false Option.none

/-- The leaf returned for a lot with no records: `process_types` is the
literal `['Not Found']`, no children, empty details. -/
def notFoundLeaf (lot : Val) : Node :=
  .mk lot Option.none ["Not Found"] .nil .nil [] false Option.none

/-- The `details` dict populated from the first record of the lot. -/
def baseDetails (first : Row) : Details :=
  [("item_no", .v (rowGet first "Item No_" (.str ""))),
   ("description", .v (rowGet first "Description" (.str ""))),
   ("certified", .v (rowGet first "Certified" (.str ""))),
   ("unit_of_measure", .v (rowGet first "Unit of Measure" (.str "KG"))),
   ("location_code", .v (rowGet first "Location Code" (.str ""))),
   ("counterparty", .v (rowGet first "Counterparty" (.str "")))]

/-- The grouping key of the `processes` dict:
`record.get('Process Type') or 'Unknown'`. -/
def effPT (r : Row) : Val :=
  let p := rowGet r "Process Type" .nil
  if truthy p then p else .str "Unknown"

/-- `processes[t]`: the lot's records whose effective process type is `t`,
in record order. -/
def recordsOfType (lotData : List Row) (t : String) : List Row :=
  lotData.filter (fun r => effPT r == .str t)

/-- The mutable state of one `trace_lot_origin` activation while its child
loops run: the node's growing `sources` and `destinations` lists and
`details` dict, plus the traversal-wide `visited` set (as an
insertion-ordered list) and the tracker caches. -/
structure BuildSt where
  sources : NodeList
  destinations : NodeList
  details : Details
  visited : List Val
  sess : Sess

/-- One child-tracing loop (`for consumed_lot in consumption_lots: ...` and
its mirror): trace each truthy lot, label the returned node, and append it
to `sources` (when `intoSources`) or `destinations`. -/
def traceChildren (tr : Val → List Val → Sess → Node × List Val × Sess)
    (rel : String) (intoSources : Bool) : List Val → BuildSt → BuildSt
  | [], st => st
  | l :: rest, st =>
      let st' :=
        if truthy l then
          let out := tr l st.visited st.sess
          let n := setRel out.1 rel
          if intoSources then
            { st with sources := st.sources.push n, visited := out.2.1, sess := out.2.2 }
          else
            { st with destinations := st.destinations.push n, visited := out.2.1, sess := out.2.2 }
        else st
      traceChildren tr rel intoSources rest st'

/-- The loop over the matching reverse-transfer rows
(`for src_transfer in source_transfers: ...`). -/
def transferSrcs (tr : Val → List Val → Sess → Node × List Val × Sess)
    (lot : Val) : List Row → BuildSt → BuildSt
  | [], st => st
  | strow :: rest, st =>
      let st' :=
        let srcLot := rowGet strow "Lot No_" .nil
        if truthy srcLot && srcLot != lot then
          let out := tr srcLot st.visited st.sess
          { st with sources := st.sources.push (setRel out.1 "Transferred from"),
                    visited := out.2.1, sess := out.2.2 }
        else st
      transferSrcs tr lot rest st'

/-- The `Output` handling loop: for each output record with a truthy
production order, record the order in `details`, collect the order's
`Consumption` rows for other lots, and trace each as a source. -/
def outputRecs (tr : Val → List Val → Sess → Node × List Val × Sess)
    (df : List Row) (lot : Val) : List Row → BuildSt → BuildSt
  | [], st => st
  | r :: rest, st =>
      let st' :=
        let po := rowGet r "Prod_ Order No_" .nil
        if truthy po then
          let dets := detSet (detSet (detSet st.details
            "production_order" (.v po))
            "output_quantity" (.v (rowGet r "Quantity (Inv_UoM)" (.num 0))))
            "output_date" (.ds (parse_excel_date (rowGet r "Date" .nil)))
          let pr := get_prod_order_records df st.sess po
          let consumptionLots := dedupFirst ((pr.1.filter (fun rec =>
            rowGet rec "Process Type" .nil == .str "Consumption" &&
            rowGet rec "Lot No_" .nil != lot)).map (fun rec => rowGet rec "Lot No_" .nil))
          traceChildren tr "Consumed to produce this lot" true consumptionLots
            { st with details := dets, sess := pr.2 }
        else st
      outputRecs tr df lot rest st'

/-- The `Consumption` handling loop: for each consumption record with a
truthy production order, record the quantities in `details`, collect the
order's `Output` rows for other lots, and trace each as a destination. -/
def consumptionRecs (tr : Val → List Val → Sess → Node × List Val × Sess)
    (df : List Row) (lot : Val) : List Row → BuildSt → BuildSt
  | [], st => st
  | r :: rest, st =>
      let st' :=
        let po := rowGet r "Prod_ Order No_" .nil
        if truthy po then
          let dets := detSet (detSet st.details
            "consumption_quantity" (.v (rowGet r "Quantity (Inv_UoM)" (.num 0))))
            "consumption_date" (.ds (parse_excel_date (rowGet r "Date" .nil)))
          let pr := get_prod_order_records df st.sess po
          let outputLots := dedupFirst ((pr.1.filter (fun rec =>
            rowGet rec "Process Type" .nil == .str "Output" &&
            rowGet rec "Lot No_" .nil != lot)).map (fun rec => rowGet rec "Lot No_" .nil))
          traceChildren tr "Produced by consuming this lot" false outputLots
            { st with details := dets, sess := pr.2 }
        else st
      consumptionRecs tr df lot rest st'

/-- The `Transfer` handling loop: for each transfer record, write the
`transfer` sub-dict into `details`, trace the destination lot (when truthy
and different from this lot), then filter the whole frame for transfers into
this lot and trace each of those source lots. -/
def transferRecs (tr : Val → List Val → Sess → Node × List Val × Sess)
    (df : List Row) (lot : Val) : List Row → BuildSt → BuildSt
  | [], st => st
  | r :: rest, st =>
      let destLot := rowGet r "Lot Dest" .nil
      let st1 := { st with details := (detSet st.details "transfer"
        (.transferRec (rowGet r "Quantity (Inv_UoM)" (.num 0))
          (parse_excel_date (rowGet r "Date" .nil)) destLot)) }
      let st2 :=
        if truthy destLot && destLot != lot then
          let out := tr destLot st1.visited st1.sess
          { st1 with destinations := st1.destinations.push (setRel out.1 "Transferred to"),
                     visited := out.2.1, sess := out.2.2 }
        else st1
      let sourceTransfers := df.filter (fun row =>
        rowGet row "Process Type" .nil == .str "Transfer" &&
        rowGet row "Lot Dest" .nil == lot &&
        rowGet row "Lot No_" .nil != lot)
      transferRecs tr df lot rest (transferSrcs tr lot sourceTransfers st2)

/-- The `Purchase` handling: when the lot has a purchase record, write the
`purchase` sub-dict from the first one and mark the node as an origin. -/
def purchasePatch (lotData : List Row) (dets : Details) : Details × Bool :=
  match recordsOfType lotData "Purchase" with
  | [] => (dets, false)
  | p :: _ =>
      (detSet dets "purchase" (.purchaseRec
        (rowGet p "Quantity (Inv_UoM)" (.num 0))
        (parse_excel_date (rowGet p "Date" .nil))), true)

/-- The three child-handling stages of one `trace_lot_origin` activation,
run in the order of the Python code: `Output`, then `Consumption`, then
`Transfer`. -/
def chain3 (tr : Val → List Val → Sess → Node × List Val × Sess)
    (df : List Row) (lot : Val) (lotData : List Row) (st0 : BuildSt) : BuildSt :=
  transferRecs tr df lot (recordsOfType lotData "Transfer")
    (consumptionRecs tr df lot (recordsOfType lotData "Consumption")
      (outputRecs tr df lot (recordsOfType lotData "Output") st0))

/-- The non-leaf body of `trace_lot_origin`: build the node from the first
record, run the three child stages, apply the `Purchase` patch, and return
the node with the final visited list and caches. -/
def traceBody (tr : Val → List Val → Sess → Node × List Val × Sess)
    (df : List Row) (lot : Val) (lotData : List Row) (pts : List String)
    (v1 : List Val) (s2 : Sess) : Node × List Val × Sess :=
  let st3 := chain3 tr df lot lotData ⟨.nil, .nil, baseDetails (lotData.headD []), v1, s2⟩
  let pd := purchasePatch lotData st3.details
  (.mk lot Option.none pts st3.sources st3.destinations pd.1 pd.2 Option.none,
   st3.visited, st3.sess)

/-- `trace_lot_origin(lot, depth)`, with the remaining depth budget
`maxDepth - depth` carried in place of `depth` so that the recursion is
structural: budget 0 is exactly `depth >= max_depth`.  The Python warning
choice `'Max depth reached' if depth >= max_depth else 'Already visited'`
makes the exhausted budget win even for an already-visited lot.  Returns the
node together with the updated `visited` list and caches. -/
def trace (df : List Row) : Nat → Val → List Val → Sess → Node × List Val × Sess
  | 0, lot, v, s =>
      let pts := get_process_types_for_lot df s lot
      (warnLeaf lot "Max depth reached" pts.1, v, pts.2)
  | f + 1, lot, v, s =>
      if lot ∈ v then
        let pts := get_process_types_for_lot df s lot
        (warnLeaf lot "Already visited" pts.1, v, pts.2)
      else
        let v1 := v ++ [lot]
        let ld := get_lot_records df s lot
        if ld.1.isEmpty then (notFoundLeaf lot, v1, ld.2)
        else
          let pts := get_process_types_for_lot df ld.2 lot
          traceBody (fun l vv ss => trace df f l vv ss) df lot ld.1 pts.1 v1 pts.2

/-- The dict returned by `get_lot_lineage`: the queried lot, the size of the
`visited` set, and the lineage tree. -/
structure LineageResult where
  queryLot : Val
  totalLotsTraced : Nat
  tree : Node

/-- `LotLineageTracker.get_lot_lineage(lot_no, max_depth)`: run the
recursive trace from a fresh `visited` set and report `len(visited)` as
`total_lots_traced`. -/
def get_lot_lineage (df : List Row) (lot : Val) (maxDepth : Nat) (s : Sess) :
    LineageResult × Sess :=
  let out := trace df maxDepth lot [] s
  ({ queryLot := lot, totalLotsTraced := out.2.1.length, tree := out.1 }, out.2.2)

/-- A single query against a freshly initialised tracker. -/
def traceLineage (df : List Row) (lot : Val) (maxDepth : Nat) : LineageResult :=
  (get_lot_lineage df lot maxDepth emptySess).1

/-- The final contents of the `visited` set of a single query against a
freshly initialised tracker. -/
def traceVisited (df : List Row) (lot : Val) (maxDepth : Nat) : List Val :=
  (trace df maxDepth lot [] emptySess).2.1

/-! Measures over lineage trees, used to state the traversal invariants. -/

mutual
/-- Whether every node of a tree satisfies a predicate. -/
def nodeAll (p : Node → Bool) : Node → Bool
  | .mk l w pt s d dt o r =>
      p (.mk l w pt s d dt o r) && listAll p s && listAll p d
def listAll (p : Node → Bool) : NodeList → Bool
  | .nil => true
  | .cons n rest => nodeAll p n && listAll p rest
end

mutual
/-- The multiset of lot numbers of the expanded nodes of a tree: the nodes
without a `warning`, i.e. those whose activation passed the visited/depth
guard and added its lot to `visited`. -/
def nodeExpM : Node → Multiset Val
  | .mk l w _ s d _ _ _ =>
      (if w = Option.none then {l} else 0) + listExpM s + listExpM d
def listExpM : NodeList → Multiset Val
  | .nil => 0
  | .cons n rest => nodeExpM n + listExpM rest
end

mutual
/-- Depth-budget discipline of a tree: with budget 0 the node must be the
max-depth leaf (warning set, no children); with budget `c+1` the children
must satisfy the discipline at budget `c`.  A tree rooted with budget
`maxDepth` therefore has no node deeper than `maxDepth`, and each node at
depth exactly `maxDepth` is a leaf carrying the max-depth warning. -/
def depthOkB : Nat → Node → Bool
  | 0, .mk _ w _ s d _ _ _ =>
      (w == some "Max depth reached") && s.isNil && d.isNil
  | c + 1, .mk _ _ _ s d _ _ _ => depthOkL c s && depthOkL c d
def depthOkL : Nat → NodeList → Bool
  | _, .nil => true
  | c, .cons n rest => depthOkB c n && depthOkL c rest
end

mutual
/-- Height of a tree in nodes (a single leaf has height 1). -/
def nodeHeight : Node → Nat
  | .mk _ _ _ s d _ _ _ => 1 + Nat.max (listHeight s) (listHeight d)
def listHeight : NodeList → Nat
  | .nil => 0
  | .cons n rest => Nat.max (nodeHeight n) (listHeight rest)
end

/-- A node that carries a warning has no children: the early-return leaves
are the only warned nodes. -/
def warnedLeafOk (n : Node) : Bool :=
  n.warning.isNone || (n.sources.isNil && n.destinations.isNil)

/-! The index builder, statistics aggregator and 5-step join chain of
`backend_processor.py` (class `CoffeeLotLineageTracker`). -/

namespace Backend

/-- Append a row to a keyed bucket, creating the bucket at the end when the
key is new: the dict-of-lists construction of `preprocess_data`. -/
def idxAppend {β : Type} : List (String × List β) → String → β → List (String × List β)
  | [], k, r => [(k, [r])]
  | (k', rs) :: rest, k, r =>
      if k' = k then (k', rs ++ [r]) :: rest else (k', rs) :: idxAppend rest k r

/-- `preprocess_data`: the `lot_index`, keyed by `str(...).strip()` of
`Lot No_`, skipping empty keys, preserving record order. -/
def lot_index (records : List Row) : List (String × List Row) :=
  records.foldl (fun idx r =>
    let k := pyStrip (pyStr (rowGet r "Lot No_" (.str "")))
    if k = "" then idx else idxAppend idx k r) []

/-- The value of a nonempty all-digit character run. -/
def digitsToNat (l : List Char) : Option Nat :=
  if l.isEmpty then Option.none
  else l.foldl (fun acc c =>
    match acc, digitVal c with
    | some a, some d => some (a * 10 + d)
    | _, _ => Option.none) (some 0)

/-- Integer result of Python `float` on the strings the quantity data uses:
optional surrounding whitespace, an optional sign, a nonempty digit run.
(The model covers exactly the integer literals; any other string is
rejected, as `float` raises on the non-numeric strings at issue.) -/
def parseNum (s : String) : Option Int :=
  let l := stripChars s.data
  match l with
  | '-' :: rest => (digitsToNat rest).map (fun n => -(n : Int))
  | '+' :: rest => (digitsToNat rest).map (fun n => (n : Int))
  | _ => (digitsToNat l).map (fun n => (n : Int))

/-- Python `float(v)`: numbers pass through, `None` and unparsable strings
raise. -/
def pyFloat : Val → Except String Int
  | .num n => .ok n
  | .nil => .error "float() argument must be a string or a real number, not NoneType"
  | .str s =>
      match parseNum s with
      | some n => .ok n
      | Option.none => .error ("could not convert string to float: " ++ s)

/-- `sum(float(r.get('Quantity', 0)) for r in records)`: left-to-right, the
first unconvertible value raises. -/
def sumQuantities : List Row → Except String Int
  | [] => .ok 0
  | r :: rest =>
      match pyFloat (rowGet r "Quantity" (.num 0)) with
      | .error e => .error e
      | .ok q =>
          match sumQuantities rest with
          | .error e => .error e
          | .ok t => .ok (q + t)

/-- Ordered insertion into a sorted list of strings. -/
def insSortIns (x : String) : List String → List String
  | [] => [x]
  | y :: rest => if x ≤ y then x :: y :: rest else y :: insSortIns x rest

/-- `sorted(...)` on strings. -/
def insSort : List String → List String
  | [] => []
  | x :: rest => insSortIns x (insSort rest)

/-- The dict `get_lot_statistics` returns: either its not-found error dict
(a normal return value) or the statistics record. -/
inductive StatsOut where
  | errDict (msg : String)
  | stats (lotNo : String) (totalRecords : Nat) (totalQuantity : Int)
      (documentTypes : List Val) (postingDates : List String) (units : List Val)
deriving DecidableEq

/-- `CoffeeLotLineageTracker.get_lot_statistics`: look the lot up in
`lot_index` (raw key), return the error dict when absent, otherwise sum the
`Quantity` cells through `float` (which raises on a non-numeric cell — the
`Except.error` case) and collect the distinct document types, sorted
distinct posting-date strings and distinct units. -/
def get_lot_statistics (records : List Row) (lot : String) : Except String StatsOut :=
  let rs := (alookup (lot_index records) lot).getD []
  if rs.isEmpty then .ok (.errDict ("No records found for lot " ++ lot))
  else
    match sumQuantities rs with
    | .error e => .error e
    | .ok tq => .ok (.stats lot rs.length tq
        (dedupFirst (rs.map (fun r => rowGet r "Document Type" (.str ""))))
        (insSort (dedupFirst (rs.map (fun r => pyStr (rowGet r "Posting Date" (.str ""))))))
        (dedupFirst (rs.map (fun r => rowGet r "Unit of Measure" (.str "")))))

/-- The `norm` helper of `build_purchase_lot_mapping`:
`str(v if v is not None else '').strip().upper()`. -/
def norm (v : Val) : String :=
  pyUpper (pyStrip (match v with | .nil => "" | x => pyStr x))

/-- The key comparison of join steps 1-4: both sides normalised. -/
def keyMatch (x y : Val) : Bool :=
  norm x == norm y

/-- A step-1 result row. -/
structure S1 where
  lotNumber : String
  saleContract : Val
  saleLot : Val
  saleContractNumber : Val
deriving DecidableEq

/-- A step-2 result row. -/
structure S2 where
  lotNumber : String
  saleLot : Val
  productionLot : Val
  saleContractNumber : Val
deriving DecidableEq

/-- A step-3 result row. -/
structure S3 where
  lotNumber : String
  productionLot : Val
  bridgeDestLot : Val
  saleContractNumber : Val
deriving DecidableEq

/-- A step-4 result row. -/
structure S4 where
  lotNumber : String
  bridgeDestLot : Val
  prodOrder : Val
  saleContractNumber : Val
deriving DecidableEq

/-- A step-5 result row. -/
structure S5 where
  lotNumber : String
  prodOrder : Val
  consumptionLot : Val
  saleContractNumber : Val
deriving DecidableEq

/-- Step 1: EACL Navision `Lot Number` -> ACOM Navision Sale
`Sale Contract`, skipping blank lot numbers; carries the EACL row's
`Sale Contract #` along. -/
def step1 (eacl sale : List Row) : List S1 :=
  eacl.flatMap (fun e =>
    let lotNumber := rowGet e "Lot Number" .nil
    if lotNumber == .nil || pyStrip (pyStr lotNumber) == "" then []
    else sale.filterMap (fun a =>
      if keyMatch (rowGet a "Sale Contract" (.str "")) lotNumber then
        some { lotNumber := pyStr lotNumber,
               saleContract := rowGet a "Sale Contract" .nil,
               saleLot := rowGet a "Lot #" .nil,
               saleContractNumber := rowGet e "Sale Contract #" .nil }
      else Option.none))

/-- Step 2: ACOM Navision Sale `Lot #` -> ACOM Nav Transform `Sale Lot`. -/
def step2 (s1 : List S1) (transform : List Row) : List S2 :=
  s1.flatMap (fun it =>
    transform.filterMap (fun t =>
      if keyMatch (rowGet t "Sale Lot" (.str "")) it.saleLot then
        some { lotNumber := it.lotNumber, saleLot := it.saleLot,
               productionLot := rowGet t "Production Lot" .nil,
               saleContractNumber := it.saleContractNumber }
      else Option.none))

/-- Step 3: ACOM Nav Transform `Production Lot` -> ACOM Nav Bridge
`Lot No_(O)`. -/
def step3 (s2 : List S2) (bridge : List Row) : List S3 :=
  s2.flatMap (fun it =>
    bridge.filterMap (fun b =>
      if keyMatch (rowGet b "Lot No_(O)" (.str "")) it.productionLot then
        some { lotNumber := it.lotNumber, productionLot := it.productionLot,
               bridgeDestLot := rowGet b "Lot No_(D)" .nil,
               saleContractNumber := it.saleContractNumber }
      else Option.none))

/-- Step 4: ACOM Nav Bridge `Lot No_(D)` -> ACOM Production Results
`Lot No_`, yielding the production order. -/
def step4 (s3 : List S3) (prodResults : List Row) : List S4 :=
  s3.flatMap (fun it =>
    prodResults.filterMap (fun p =>
      if keyMatch (rowGet p "Lot No_" (.str "")) it.bridgeDestLot then
        some { lotNumber := it.lotNumber, bridgeDestLot := it.bridgeDestLot,
               prodOrder := rowGet p "Prod_ Order No_" .nil,
               saleContractNumber := it.saleContractNumber }
      else Option.none))

/-- Step 5: ACOM Production Results `Prod_ Order No_` -> the main ledger's
`Consumption` rows.  Unlike steps 1-4, the production-order keys are
compared raw (`r.get('Prod_ Order No_') == item['prodOrder']`), with no
normalisation. -/
def step5 (s4 : List S4) (records : List Row) : List S5 :=
  s4.flatMap (fun it =>
    (records.filter (fun r =>
      rowGet r "Prod_ Order No_" .nil == it.prodOrder &&
      rowGet r "Process Type" .nil == .str "Consumption")).map (fun r =>
        { lotNumber := it.lotNumber, prodOrder := it.prodOrder,
          consumptionLot := rowGet r "Lot No_" .nil,
          saleContractNumber := it.saleContractNumber }))

/-- The insertion of one step-5 row into `purchase_lot_map`: create the sale
contract's bucket on first sight, append the consumption lot unless already
present. -/
def mapInsert : List (String × List Val) → String → Val → List (String × List Val)
  | [], k, v => [(k, [v])]
  | (k', vs) :: rest, k, v =>
      if k' = k then (k', if v ∈ vs then vs else vs ++ [v]) :: rest
      else (k', vs) :: mapInsert rest k v

/-- The seven input tables of the backend tracker (the two purchase sheets
play no part in the join chain and are omitted). -/
structure Tables where
  records : List Row
  eacl : List Row
  sale : List Row
  transform : List Row
  bridge : List Row
  prodResults : List Row
deriving DecidableEq

/-- `build_purchase_lot_mapping`: run the five join steps and group the
step-5 rows by `str(saleContractNumber)`, collecting each consumption lot
once in order of first appearance. -/
def build_purchase_lot_mapping (t : Tables) : List (String × List Val) :=
  (step5 (step4 (step3 (step2 (step1 t.eacl t.sale) t.transform) t.bridge)
    t.prodResults) t.records).foldl
    (fun m it => mapInsert m (pyStr it.saleContractNumber) it.consumptionLot) []

/-- The sale-contract query surface: `purchase_lot_map.get(sale_contract,
[])`, as used by `get_purchase_lot_lineage`. -/
def resolveSaleContract (t : Tables) (sc : String) : List Val :=
  (alookup (build_purchase_lot_mapping t) sc).getD []

/-- Step 5 as the specification text describes it, with the normalised key
comparison of the other stages applied to the production-order keys; written
only to compare against `step5`, which the code implements with a raw
comparison. -/
def step5Normalized (s4 : List S4) (records : List Row) : List S5 :=
  s4.flatMap (fun it =>
    (records.filter (fun r =>
      keyMatch (rowGet r "Prod_ Order No_" .nil) it.prodOrder &&
      rowGet r "Process Type" .nil == .str "Consumption")).map (fun r =>
        { lotNumber := it.lotNumber, prodOrder := it.prodOrder,
          consumptionLot := rowGet r "Lot No_" .nil,
          saleContractNumber := it.saleContractNumber }))

/-- The sale-contract resolution built on `step5Normalized` instead of the
code's `step5`. -/
def resolveSaleContractNormalized (t : Tables) (sc : String) : List Val :=
  (alookup ((step5Normalized (step4 (step3 (step2 (step1 t.eacl t.sale)
    t.transform) t.bridge) t.prodResults) t.records).foldl
    (fun m it => mapInsert m (pyStr it.saleContractNumber) it.consumptionLot) []) sc).getD []

end Backend

deriving instance DecidableEq for Except

/-! Invariant predicates used to state and prove the traversal properties. -/

/-- The traversal invariant of one `trace_lot_origin` activation at depth
budget `f` entered with visited list `v`: it appends some `new` lots to
`visited`; the expanded nodes of the returned tree are exactly those `new`
lots; it preserves distinctness of `visited`; the returned tree obeys the
depth-budget discipline and the height bound; and every warned node in it is
a leaf. -/
def TrP (f : Nat) (v : List Val) (out : Node × List Val × Sess) : Prop :=
  ∃ new, out.2.1 = v ++ new
    ∧ nodeExpM out.1 = (new : Multiset Val)
    ∧ (v.Nodup → out.2.1.Nodup)
    ∧ depthOkB f out.1 = true
    ∧ nodeHeight out.1 ≤ f + 1
    ∧ nodeAll warnedLeafOk out.1 = true

/-- The build-state invariant pushed through the child loops of one
activation: visited grows by `new`, whose multiset is exactly what the newly
appended subtrees expand, while distinctness, depth discipline, heights and
the warned-leaf property are preserved. -/
def StP (f : Nat) (st st' : BuildSt) : Prop :=
  ∃ new, st'.visited = st.visited ++ new
    ∧ listExpM st'.sources + listExpM st'.destinations
        = listExpM st.sources + listExpM st.destinations + (new : Multiset Val)
    ∧ (st.visited.Nodup → st'.visited.Nodup)
    ∧ (depthOkL f st.sources = true → depthOkL f st'.sources = true)
    ∧ (depthOkL f st.destinations = true → depthOkL f st'.destinations = true)
    ∧ listHeight st'.sources ≤ Nat.max (listHeight st.sources) (f + 1)
    ∧ listHeight st'.destinations ≤ Nat.max (listHeight st.destinations) (f + 1)
    ∧ (listAll warnedLeafOk st.sources = true → listAll warnedLeafOk st'.sources = true)
    ∧ (listAll warnedLeafOk st.destinations = true → listAll warnedLeafOk st'.destinations = true)

/-- Cache coherence: every memoised entry equals the filter it memoises. -/
def Coherent (df : List Row) (s : Sess) : Prop :=
  (∀ p ∈ s.lotCache, p.2 = lotFilter df p.1) ∧
  (∀ p ∈ s.prodCache, p.2 = prodFilter df p.1)

/-- The two-run relation on build states: all traversal-visible components
agree, and both cache states are coherent. -/
def BRel (df : List Row) (st st' : BuildSt) : Prop :=
  st.sources = st'.sources ∧ st.destinations = st'.destinations ∧
  st.details = st'.details ∧ st.visited = st'.visited ∧
  Coherent df st.sess ∧ Coherent df st'.sess

/-- The two-run relation on `trace` outputs: node and visited list agree,
both final cache states are coherent. -/
def ORel (df : List Row) (a b : Node × List Val × Sess) : Prop :=
  a.1 = b.1 ∧ a.2.1 = b.2.1 ∧ Coherent df a.2.2 ∧ Coherent df b.2.2

/-- A record whose `Quantity` cell is numeric or missing, the rows on which
Python `float(r.get('Quantity', 0))` cannot raise. -/
def qNumOk (r : Row) : Bool :=
  match alookup r "Quantity" with
  | Option.none => true
  | some (.num _) => true
  | some _ => false

/-- The specification's independently computed total: the sum of the
`Quantity` cells of a record list, a missing or non-numeric cell
contributing 0. -/
def specTotalQuantity (rs : List Row) : Int :=
  (rs.map (fun r =>
    match rowGet r "Quantity" (.num 0) with
    | .num n => n
    | _ => 0)).sum

/-! Concrete record sets for the scenario claims. -/

/-- The Scenario-A ledger: `L1` purchased, `L2` consumed under order `P1`,
`L3` output under order `P1`. -/
def dfScenarioA : List Row :=
  [[("Lot No_", .str "L1"), ("Process Type", .str "Purchase"),
    ("Quantity (Inv_UoM)", .num 100)],
   [("Lot No_", .str "L2"), ("Process Type", .str "Consumption"),
    ("Prod_ Order No_", .str "P1"), ("Quantity (Inv_UoM)", .num 100)],
   [("Lot No_", .str "L3"), ("Process Type", .str "Output"),
    ("Prod_ Order No_", .str "P1"), ("Quantity (Inv_UoM)", .num 95)]]

/-- The Scenario-C ledger: a single lot `LX` whose transfer record names
`LX` itself as destination. -/
def dfScenarioC : List Row :=
  [[("Lot No_", .str "LX"), ("Process Type", .str "Transfer"),
    ("Lot Dest", .str "LX"), ("Quantity (Inv_UoM)", .num 10)]]

/-- A two-lot transfer cycle `L -> M -> L`, used to exhibit the warning
priority at an exhausted depth budget. -/
def dfCycle : List Row :=
  [[("Lot No_", .str "L"), ("Process Type", .str "Transfer"), ("Lot Dest", .str "M")],
   [("Lot No_", .str "M"), ("Process Type", .str "Transfer"), ("Lot Dest", .str "L")]]

/-- A one-row ledger used to query a lot that is not present. -/
def dfMini : List Row :=
  [[("Lot No_", .str "L1"), ("Process Type", .str "Purchase")]]

/-- A ledger whose lot `LB` carries a non-numeric quantity string, and whose
lot `LA` carries ordinary numeric quantities. -/
def dfQuant : List Row :=
  [[("Lot No_", .str "LB"), ("Quantity", .str "abc")],
   [("Lot No_", .str "LA"), ("Quantity", .num 7),
    ("Document Type", .str "Output"), ("Posting Date", .str "2024-01-02")],
   [("Lot No_", .str "LA"),
    ("Document Type", .str "Consumption"), ("Posting Date", .str "2024-01-01")]]

/-- The Scenario-B tables: a sale registry row for `SC1` linked through the
four auxiliary tables to production order `P1`, under which lot `L9` is
consumed. -/
def tablesScenarioB : Backend.Tables :=
  { records := [[("Prod_ Order No_", .str "P1"),
      ("Process Type", .str "Consumption"), ("Lot No_", .str "L9")]],
    eacl := [[("Lot Number", .str "EL1"), ("Sale Contract #", .str "SC1")]],
    sale := [[("Sale Contract", .str "EL1"), ("Lot #", .str "SL1")]],
    transform := [[("Sale Lot", .str "SL1"), ("Production Lot", .str "PL1")]],
    bridge := [[("Lot No_(O)", .str "PL1"), ("Lot No_(D)", .str "DL1")]],
    prodResults := [[("Lot No_", .str "DL1"), ("Prod_ Order No_", .str "P1")]] }

/-- The Scenario-B tables with case differences in every join key: steps 1-4
still match (they normalise), but the production-order keys differ only in
case, which step 5 compares raw. -/
def tablesCase : Backend.Tables :=
  { records := [[("Prod_ Order No_", .str "P1"),
      ("Process Type", .str "Consumption"), ("Lot No_", .str "L9")]],
    eacl := [[("Lot Number", .str "el1"), ("Sale Contract #", .str "SC1")]],
    sale := [[("Sale Contract", .str "EL1"), ("Lot #", .str "SL1")]],
    transform := [[("Sale Lot", .str "sl1"), ("Production Lot", .str "PL1")]],
    bridge := [[("Lot No_(O)", .str "pl1"), ("Lot No_(D)", .str "DL1")]],
    prodResults := [[("Lot No_", .str "dl1"), ("Prod_ Order No_", .str "p1")]] }

/-! Theorems. -/

/-- C4 (counterexample): on the exact Scenario-A ledger, `get_lot_lineage
("L3", 10)` traces 2 lots, not 3: the root's single source `L2` has no
sources at all (in particular not `L1`), because a lot with only a
`Consumption` record gains destinations, never sources. -/
theorem c4_scenarioA_counterexample :
    (traceLineage dfScenarioA (.str "L3") 10).totalLotsTraced = 2 ∧
    ((traceLineage dfScenarioA (.str "L3") 10).tree.sources.toList.map Node.lotNo
      = [.str "L2"]) ∧
    ((traceLineage dfScenarioA (.str "L3") 10).tree.sources.toList.headD
      (notFoundLeaf .nil)).sources.isNil = true ∧
    traceVisited dfScenarioA (.str "L3") 10 = [.str "L3", .str "L2"] := by
  decide

/-- C4 (amended): on the Scenario-A ledger, `get_lot_lineage("L3", 10)`
returns a root `L3` with the single source `L2` labelled `Consumed to
produce this lot`; `L2` has no sources and a single destination, the
already-visited leaf for `L3`; `L1` is never visited and
`total_lots_traced = 2`. -/
theorem c4_scenarioA_amended :
    (traceLineage dfScenarioA (.str "L3") 10).totalLotsTraced = 2 ∧
    (traceLineage dfScenarioA (.str "L3") 10).tree.lotNo = .str "L3" ∧
    (traceLineage dfScenarioA (.str "L3") 10).tree.warning = Option.none ∧
    ((traceLineage dfScenarioA (.str "L3") 10).tree.sources.toList.map
      (fun n => (n.lotNo, n.relationship, n.sources.isNil))
      = [(.str "L2", some "Consumed to produce this lot", true)]) ∧
    ((traceLineage dfScenarioA (.str "L3") 10).tree.destinations.isNil = true) ∧
    (((traceLineage dfScenarioA (.str "L3") 10).tree.sources.toList.headD
        (notFoundLeaf .nil)).destinations.toList.map
      (fun n => (n.lotNo, n.warning, n.relationship, n.sources.isNil, n.destinations.isNil))
      = [(.str "L3", some "Already visited", some "Produced by consuming this lot",
          true, true)]) ∧
    traceVisited dfScenarioA (.str "L3") 10 = [.str "L3", .str "L2"] := by
  decide

/-- C6 (counterexample): on the Scenario-C self-transfer ledger, no node of
the returned tree carries any warning — in particular there is no
already-visited leaf for the second encounter of `LX`, because the
`dest_lot != lot` guard skips the self-transfer and no second encounter ever
happens; the tree has no children and only one lot is traced. -/
theorem c6_selfTransfer_counterexample :
    nodeAll (fun n => n.warning == Option.none)
      (traceLineage dfScenarioC (.str "LX") 10).tree = true ∧
    (traceLineage dfScenarioC (.str "LX") 10).tree.destinations.isNil = true ∧
    (traceLineage dfScenarioC (.str "LX") 10).tree.sources.isNil = true ∧
    (traceLineage dfScenarioC (.str "LX") 10).totalLotsTraced = 1 := by
  decide

/-- C6 (amended): `get_lot_lineage("LX", 10)` on the self-transfer ledger
terminates with a single expanded node: the self-transfer is recorded in the
node's `details` under `transfer` (destination `LX`) but is skipped by the
`dest_lot != lot` guard, so the node has no children, no warning appears
anywhere, and `total_lots_traced = 1`. -/
theorem c6_selfTransfer_amended :
    (traceLineage dfScenarioC (.str "LX") 10).totalLotsTraced = 1 ∧
    (traceLineage dfScenarioC (.str "LX") 10).tree.lotNo = .str "LX" ∧
    (traceLineage dfScenarioC (.str "LX") 10).tree.warning = Option.none ∧
    (traceLineage dfScenarioC (.str "LX") 10).tree.processTypes = ["Transfer"] ∧
    (traceLineage dfScenarioC (.str "LX") 10).tree.sources.isNil = true ∧
    (traceLineage dfScenarioC (.str "LX") 10).tree.destinations.isNil = true ∧
    alookup (traceLineage dfScenarioC (.str "LX") 10).tree.details "transfer"
      = some (.transferRec (.num 10) "" (.str "LX")) ∧
    traceVisited dfScenarioC (.str "LX") 10 = [.str "LX"] := by
  decide

/-- C1 (counterexample): in the transfer cycle `L -> M -> L` with
`max_depth = 2`, the root expands `L` (no warning), yet the later encounter
of the already-visited `L` two levels down is rendered with the
`Max depth reached` warning, not `Already visited`: the depth test wins the
warning choice even for an already-visited lot. -/
theorem c1_warningPriority_counterexample :
    (traceLineage dfCycle (.str "L") 2).tree.lotNo = .str "L" ∧
    (traceLineage dfCycle (.str "L") 2).tree.warning = Option.none ∧
    ((traceLineage dfCycle (.str "L") 2).tree.destinations.toList.map (fun m =>
        (m.lotNo, m.warning,
         m.destinations.toList.map (fun k => (k.lotNo, k.warning))))
      = [(.str "M", Option.none, [(.str "L", some "Max depth reached")])]) ∧
    traceVisited dfCycle (.str "L") 2 = [.str "L", .str "M"] := by
  decide

/-- C7: Scenario B.  With the sale registry row for `SC1` linked through the
four auxiliary tables to production order `P1` and a consumption row for
`L9` under `P1`, the resolution returns exactly `["L9"]`, and the
`Sale Contract #` captured at step 1 is carried unchanged through every
step. -/
theorem c7_scenarioB_resolution :
    Backend.resolveSaleContract tablesScenarioB "SC1" = [.str "L9"] ∧
    ((Backend.step1 tablesScenarioB.eacl tablesScenarioB.sale).map
      Backend.S1.saleContractNumber = [.str "SC1"]) ∧
    ((Backend.step2 (Backend.step1 tablesScenarioB.eacl tablesScenarioB.sale)
        tablesScenarioB.transform).map Backend.S2.saleContractNumber = [.str "SC1"]) ∧
    ((Backend.step3 (Backend.step2 (Backend.step1 tablesScenarioB.eacl
        tablesScenarioB.sale) tablesScenarioB.transform)
        tablesScenarioB.bridge).map Backend.S3.saleContractNumber = [.str "SC1"]) ∧
    ((Backend.step4 (Backend.step3 (Backend.step2 (Backend.step1
        tablesScenarioB.eacl tablesScenarioB.sale) tablesScenarioB.transform)
        tablesScenarioB.bridge) tablesScenarioB.prodResults).map
        Backend.S4.saleContractNumber = [.str "SC1"]) ∧
    ((Backend.step5 (Backend.step4 (Backend.step3 (Backend.step2 (Backend.step1
        tablesScenarioB.eacl tablesScenarioB.sale) tablesScenarioB.transform)
        tablesScenarioB.bridge) tablesScenarioB.prodResults)
        tablesScenarioB.records).map Backend.S5.saleContractNumber = [.str "SC1"]) := by
  decide

/-- C8 (counterexample): the normalisation is not applied in every key
comparison.  On tables whose production-order keys `p1` and `P1` are equal
after normalisation, the chain reaches step 4 but resolves to nothing,
because step 5 compares the keys raw; the variant of step 5 written from the
specification's words (normalised comparison) resolves to `["L9"]`. -/
theorem c8_rawStepFive_counterexample :
    Backend.keyMatch (.str "p1") (.str "P1") = true ∧
    ((Backend.step4 (Backend.step3 (Backend.step2 (Backend.step1
        tablesCase.eacl tablesCase.sale) tablesCase.transform)
        tablesCase.bridge) tablesCase.prodResults).length = 1) ∧
    Backend.resolveSaleContract tablesCase "SC1" = [] ∧
    Backend.resolveSaleContractNormalized tablesCase "SC1" = [.str "L9"] := by
  decide

/-- C5 (counterexample): a non-numeric quantity string does not contribute 0
— `get_lot_statistics` raises (`float('abc')` fails), while the
specification's independent sum for the same records is 0. -/
theorem c5_nonNumeric_counterexample :
    Backend.get_lot_statistics dfQuant "LB"
      = Except.error "could not convert string to float: abc" ∧
    specTotalQuantity ((alookup (Backend.lot_index dfQuant) "LB").getD []) = 0 := by
  decide

/-! Association-list and string lemmas. -/

theorem alookup_mem {α β : Type} [DecidableEq α] :
    ∀ {l : List (α × β)} {k : α} {v : β}, alookup l k = some v → (k, v) ∈ l := by
  intro l
  induction l with
  | nil => intro k v h; simp [alookup] at h
  | cons p rest ih =>
      intro k v h
      obtain ⟨k', v'⟩ := p
      by_cases hk : k' = k
      · subst hk
        simp [alookup] at h
        simp [h]
      · simp [alookup, hk] at h
        exact List.mem_cons_of_mem _ (ih h)

theorem upChar_not_in_table {c d : Char} (h : alookup lowerUpper c = some d) :
    alookup lowerUpper d = Option.none := by
  have hm : (c, d) ∈ lowerUpper := alookup_mem h
  have hall : ∀ p ∈ lowerUpper, alookup lowerUpper p.2 = Option.none := by decide
  exact hall (c, d) hm

theorem upChar_idem (c : Char) : upChar (upChar c) = upChar c := by
  unfold upChar
  rcases h : alookup lowerUpper c with _ | d
  · simp [h]
  · simp [h, upChar_not_in_table h]

theorem isPySpace_upChar (c : Char) : isPySpace (upChar c) = isPySpace c := by
  unfold upChar
  rcases h : alookup lowerUpper c with _ | d
  · simp
  · have hm : (c, d) ∈ lowerUpper := alookup_mem h
    have hall : ∀ p ∈ lowerUpper, isPySpace p.1 = false ∧ isPySpace p.2 = false := by
      decide
    simp [(hall (c, d) hm).1, (hall (c, d) hm).2]

theorem dropWhile_head_false {α : Type} (p : α → Bool) :
    ∀ (l : List α) (a : α) (t : List α), l.dropWhile p = a :: t → p a = false := by
  intro l
  induction l with
  | nil => intro a t h; simp [List.dropWhile] at h
  | cons x xs ih =>
      intro a t h
      rw [List.dropWhile_cons] at h
      by_cases hx : p x = true
      · exact ih a t (by rwa [if_pos hx] at h)
      · rw [if_neg hx] at h
        cases h
        simpa using hx

theorem dropWhile_append_last {α : Type} (p : α → Bool) (a : α) (h : p a = false) :
    ∀ xs : List α, (xs ++ [a]).dropWhile p = xs.dropWhile p ++ [a] := by
  intro xs
  induction xs with
  | nil => simp [List.dropWhile_cons, h]
  | cons x rest ih =>
      rw [List.cons_append, List.dropWhile_cons, List.dropWhile_cons]
      by_cases hx : p x = true
      · rw [if_pos hx, if_pos hx, ih]
      · rw [if_neg hx, if_neg hx, List.cons_append]

theorem rtrim_cons {α : Type} (p : α → Bool) (a : α) (h : p a = false) (l : List α) :
    ((a :: l).reverse.dropWhile p).reverse = a :: (l.reverse.dropWhile p).reverse := by
  rw [List.reverse_cons, dropWhile_append_last p a h, List.reverse_append]
  simp

theorem stripChars_cons (a : Char) (h : isPySpace a = false) (l : List Char) :
    stripChars (a :: l) = a :: (l.reverse.dropWhile isPySpace).reverse := by
  unfold stripChars
  rw [List.dropWhile_cons, if_neg (by simp [h]), rtrim_cons _ _ h]

theorem rtrim_idem (p : Char → Bool) (l : List Char) :
    (((l.reverse.dropWhile p).reverse).reverse.dropWhile p).reverse =
      (l.reverse.dropWhile p).reverse := by
  rw [List.reverse_reverse, List.dropWhile_idempotent]

theorem stripChars_idem (l : List Char) : stripChars (stripChars l) = stripChars l := by
  rcases h : l.dropWhile isPySpace with _ | ⟨a, t⟩
  · have h1 : stripChars l = [] := by unfold stripChars; rw [h]; rfl
    rw [h1]
    rfl
  · have ha : isPySpace a = false := dropWhile_head_false _ l a t h
    have h1 : stripChars l = a :: (t.reverse.dropWhile isPySpace).reverse := by
      unfold stripChars
      rw [h, rtrim_cons _ _ ha]
    rw [h1, stripChars_cons a ha, rtrim_idem]

theorem dropWhile_map_pres {α : Type} (p : α → Bool) (f : α → α)
    (hf : ∀ c, p (f c) = p c) :
    ∀ l : List α, (l.map f).dropWhile p = (l.dropWhile p).map f := by
  intro l
  induction l with
  | nil => rfl
  | cons x xs ih =>
      rw [List.map_cons, List.dropWhile_cons, List.dropWhile_cons, hf x]
      by_cases hx : p x = true
      · rw [if_pos hx, if_pos hx, ih]
      · rw [if_neg hx, if_neg hx, List.map_cons]

theorem stripChars_map_upChar (l : List Char) :
    stripChars (l.map upChar) = (stripChars l).map upChar := by
  unfold stripChars
  rw [dropWhile_map_pres _ _ isPySpace_upChar, ← List.map_reverse,
    dropWhile_map_pres _ _ isPySpace_upChar, ← List.map_reverse]

theorem map_upChar_idem (l : List Char) :
    (l.map upChar).map upChar = l.map upChar := by
  rw [List.map_map]
  exact List.map_congr_left (fun c _ => upChar_idem c)

theorem upStrip_idem (s : String) :
    pyUpper (pyStrip (pyUpper (pyStrip s))) = pyUpper (pyStrip s) := by
  show String.mk (stripChars ((stripChars s.data).map upChar) |>.map upChar) =
    String.mk ((stripChars s.data).map upChar)
  rw [stripChars_map_upChar, stripChars_idem, map_upChar_idem]

/-- C8 (amended): the key normalisation `norm` (strip, then upper-case) is
idempotent, and join steps 1-4 apply it to both sides of their key
comparison, so normalising either operand beforehand cannot change any
step-1-to-4 match decision.  (Step 5 and the lot index do not use `norm`;
see the counterexample.) -/
theorem c8_norm_idempotent :
    (∀ s : String, pyUpper (pyStrip (pyUpper (pyStrip s))) = pyUpper (pyStrip s)) ∧
    (∀ v : Val, Backend.norm (.str (Backend.norm v)) = Backend.norm v) ∧
    (∀ x y : Val, Backend.keyMatch (.str (Backend.norm x)) y = Backend.keyMatch x y ∧
      Backend.keyMatch x (.str (Backend.norm y)) = Backend.keyMatch x y) := by
  have hidem : ∀ v : Val, Backend.norm (.str (Backend.norm v)) = Backend.norm v := by
    intro v
    show pyUpper (pyStrip (pyStr (.str (Backend.norm v)))) = Backend.norm v
    show pyUpper (pyStrip (Backend.norm v)) = Backend.norm v
    rcases v with s | n | _
    · exact upStrip_idem s
    · exact upStrip_idem (intStr n)
    · exact upStrip_idem ""
  refine ⟨upStrip_idem, hidem, fun x y => ?_⟩
  constructor
  · show (Backend.norm (.str (Backend.norm x)) == Backend.norm y) = _
    rw [hidem x]
    rfl
  · show (Backend.norm x == Backend.norm (.str (Backend.norm y))) = _
    rw [hidem y]
    rfl

/-- C10: `parse_excel_date` is total (it returns a string for every value):
`None` and the empty string yield the empty string; a numeric value is a day
count from 1899-12-30 formatted `YYYY-MM-DD` whenever the resulting year is
representable, and falls back to the value's string form otherwise; a string
whose portion before any `T` parses under `fromisoformat` (the CPython
parser transliterated above, time-of-day and free-form separator
included) is reformatted to its date `%Y-%m-%d`; any other string comes
back unchanged. -/
theorem c10_parse_excel_date_cases :
    parse_excel_date .nil = "" ∧
    parse_excel_date (.str "") = "" ∧
    (∀ n : Int, 1 ≤ (civilFromDays (n - 25569)).1 →
      (civilFromDays (n - 25569)).1 ≤ 9999 →
      parse_excel_date (.num n) = fmtDate (civilFromDays (n - 25569)).1
        (civilFromDays (n - 25569)).2.1 (civilFromDays (n - 25569)).2.2) ∧
    (∀ n : Int,
      ¬ (1 ≤ (civilFromDays (n - 25569)).1 ∧ (civilFromDays (n - 25569)).1 ≤ 9999) →
      parse_excel_date (.num n) = intStr n) ∧
    (∀ s : String, ∀ y m d : Int, fromisoformat (upToT s.data) = some (y, m, d) →
      parse_excel_date (.str s) = fmtDate y m d) ∧
    (∀ s : String, s ≠ "" → fromisoformat (upToT s.data) = Option.none →
      parse_excel_date (.str s) = s) := by
  refine ⟨rfl, rfl, ?_, ?_, ?_, ?_⟩
  · intro n h1 h2
    simp [parse_excel_date, h1, h2]
  · intro n h
    simp only [parse_excel_date]
    rw [if_neg h]
  · intro s y m d h
    by_cases hs : s = ""
    · subst hs
      rw [show fromisoformat (upToT ("" : String).data) = Option.none from rfl] at h
      exact Option.noConfusion h
    · simp [parse_excel_date, hs, h]
  · intro s hs h
    simp [parse_excel_date, hs, h]

/-- Witness for the conditional clauses of the C10 theorem, at the Excel day
number 45000, a leap-day timestamp string with a `T` separator, a
space-separated timestamp, an offset-carrying timestamp, a basic-format
date, a `Z`-suffixed timestamp, an ISO-week date, a non-date string, an
invalid-month timestamp returned unchanged, and a day number far outside
the representable years. -/
theorem c10_witness :
    parse_excel_date (.num 45000) = "2023-03-15" ∧
    parse_excel_date (.str "2024-02-29T10:00") = "2024-02-29" ∧
    parse_excel_date (.str "2024-02-29 10:00:00") = "2024-02-29" ∧
    parse_excel_date (.str "2024-02-29 10:00:00.123456+05:30") = "2024-02-29" ∧
    parse_excel_date (.str "20240229 10:00") = "2024-02-29" ∧
    parse_excel_date (.str "2024-02-29 10:00:00Z") = "2024-02-29" ∧
    parse_excel_date (.str "2024-W09-4") = "2024-02-29" ∧
    parse_excel_date (.str "hello") = "hello" ∧
    parse_excel_date (.str "2024-13-05 10:00") = "2024-13-05 10:00" ∧
    parse_excel_date (.num 5000000) = "5000000" := by
  refine ⟨?_, ?_, ?_, ?_, ?_, ?_, ?_, ?_, ?_, ?_⟩
  · exact (c10_parse_excel_date_cases.2.2.1 45000 (by decide) (by decide)).trans (by decide)
  · exact (c10_parse_excel_date_cases.2.2.2.2.1 "2024-02-29T10:00" 2024 2 29
      (by decide)).trans (by decide)
  · exact (c10_parse_excel_date_cases.2.2.2.2.1 "2024-02-29 10:00:00" 2024 2 29
      (by decide)).trans (by decide)
  · exact (c10_parse_excel_date_cases.2.2.2.2.1 "2024-02-29 10:00:00.123456+05:30"
      2024 2 29 (by decide)).trans (by decide)
  · exact (c10_parse_excel_date_cases.2.2.2.2.1 "20240229 10:00" 2024 2 29
      (by decide)).trans (by decide)
  · exact (c10_parse_excel_date_cases.2.2.2.2.1 "2024-02-29 10:00:00Z" 2024 2 29
      (by decide)).trans (by decide)
  · exact (c10_parse_excel_date_cases.2.2.2.2.1 "2024-W09-4" 2024 2 29
      (by decide)).trans (by decide)
  · exact c10_parse_excel_date_cases.2.2.2.2.2 "hello" (by decide) (by decide)
  · exact c10_parse_excel_date_cases.2.2.2.2.2 "2024-13-05 10:00" (by decide) (by decide)
  · exact (c10_parse_excel_date_cases.2.2.2.1 5000000 (by decide)).trans (by decide)

/-- C3: querying a lot that has no records (while the depth budget allows
any expansion at all, `max_depth > 0`) returns the single `Not Found` leaf —
no sources, no destinations, no exception, and `total_lots_traced = 1`. -/
theorem c3_notFound_leaf (df : List Row) (lot : Val) (maxDepth : Nat)
    (hmd : 0 < maxDepth) (habs : lotFilter df lot = []) :
    traceLineage df lot maxDepth =
      ⟨lot, 1, Node.mk lot Option.none ["Not Found"] .nil .nil [] false Option.none⟩ := by
  obtain ⟨m, rfl⟩ : ∃ m, maxDepth = m + 1 :=
    ⟨maxDepth - 1, (Nat.succ_pred_eq_of_pos hmd).symm⟩
  simp [traceLineage, get_lot_lineage, trace, get_lot_records, emptySess, alookup,
    habs, notFoundLeaf]

/-- Witness for C3 at a concrete ledger and an absent lot. -/
theorem c3_witness :
    0 < 10 ∧ lotFilter dfMini (.str "ZZ") = [] ∧
    traceLineage dfMini (.str "ZZ") 10 =
      ⟨.str "ZZ", 1,
       Node.mk (.str "ZZ") Option.none ["Not Found"] .nil .nil [] false Option.none⟩ :=
  ⟨by decide, by decide, c3_notFound_leaf dfMini (.str "ZZ") 10 (by decide) (by decide)⟩

theorem sumQuantities_ok :
    ∀ rs : List Row, (∀ r ∈ rs, qNumOk r = true) →
      Backend.sumQuantities rs = Except.ok (specTotalQuantity rs) := by
  intro rs
  induction rs with
  | nil => intro h; rfl
  | cons r rest ih =>
      intro h
      have hrest := ih (fun x hx => h x (List.mem_cons_of_mem _ hx))
      have hr := h r (List.mem_cons_self _ _)
      rcases hq : alookup r "Quantity" with _ | v
      · simp [Backend.sumQuantities, rowGet, hq, Backend.pyFloat, hrest,
          specTotalQuantity]
      · rcases v with sv | nv | _
        · rw [qNumOk, hq] at hr
          simp at hr
        · simp [Backend.sumQuantities, rowGet, hq, Backend.pyFloat, hrest,
            specTotalQuantity]
        · rw [qNumOk, hq] at hr
          simp at hr

/-- C5 (amended): for a lot present in the index all of whose records carry
a numeric or missing `Quantity`, `get_lot_statistics` raises nothing and its
`totalQuantity` equals the independently computed sum over
`lot_index` lookup, missing cells contributing 0 — while a non-numeric cell
makes the whole call raise (see the counterexample). -/
theorem c5_statistics_sum (records : List Row) (lot : String)
    (h1 : (alookup (Backend.lot_index records) lot).getD [] ≠ [])
    (h2 : ∀ r ∈ (alookup (Backend.lot_index records) lot).getD [], qNumOk r = true) :
    ∃ dt pd u, Backend.get_lot_statistics records lot =
      Except.ok (.stats lot ((alookup (Backend.lot_index records) lot).getD []).length
        (specTotalQuantity ((alookup (Backend.lot_index records) lot).getD []))
        dt pd u) := by
  have key : Backend.get_lot_statistics records lot =
      Except.ok (.stats lot ((alookup (Backend.lot_index records) lot).getD []).length
        (specTotalQuantity ((alookup (Backend.lot_index records) lot).getD []))
        (dedupFirst (((alookup (Backend.lot_index records) lot).getD []).map
          (fun r => rowGet r "Document Type" (.str ""))))
        (Backend.insSort (dedupFirst (((alookup (Backend.lot_index records) lot).getD []).map
          (fun r => pyStr (rowGet r "Posting Date" (.str ""))))))
        (dedupFirst (((alookup (Backend.lot_index records) lot).getD []).map
          (fun r => rowGet r "Unit of Measure" (.str ""))))) := by
    unfold Backend.get_lot_statistics
    rw [if_neg (by simpa [List.isEmpty_iff] using h1), sumQuantities_ok _ h2]
  exact ⟨_, _, _, key⟩

/-- Witness for C5 (amended) at a ledger where lot `LA` has one numeric and
one missing quantity. -/
theorem c5_witness :
    ((alookup (Backend.lot_index dfQuant) "LA").getD [] ≠ []) ∧
    (∀ r ∈ (alookup (Backend.lot_index dfQuant) "LA").getD [], qNumOk r = true) ∧
    (∃ dt pd u, Backend.get_lot_statistics dfQuant "LA" =
      Except.ok (.stats "LA" 2 7 dt pd u)) :=
  ⟨by decide, by decide, c5_statistics_sum dfQuant "LA" (by decide) (by decide)⟩

/-! Node and node-list lemmas. -/

theorem nodeExpM_setRel (n : Node) (rel : String) :
    nodeExpM (setRel n rel) = nodeExpM n := by
  cases n
  rfl

theorem depthOkB_setRel (c : Nat) (n : Node) (rel : String) :
    depthOkB c (setRel n rel) = depthOkB c n := by
  cases n
  cases c <;> rfl

theorem nodeHeight_setRel (n : Node) (rel : String) :
    nodeHeight (setRel n rel) = nodeHeight n := by
  cases n
  rfl

theorem nodeAll_warnedLeafOk_setRel (n : Node) (rel : String) :
    nodeAll warnedLeafOk (setRel n rel) = nodeAll warnedLeafOk n := by
  cases n
  rfl

theorem listExpM_push : ∀ (nl : NodeList) (n : Node),
    listExpM (nl.push n) = listExpM nl + nodeExpM n
  | .nil, n => by
      simp [NodeList.push, listExpM]
  | .cons m rest, n => by
      rw [NodeList.push, listExpM, listExpM_push rest n, listExpM, add_assoc]

theorem depthOkL_push : ∀ (c : Nat) (nl : NodeList) (n : Node),
    depthOkL c (nl.push n) = (depthOkL c nl && depthOkB c n)
  | c, .nil, n => by
      simp [NodeList.push, depthOkL]
  | c, .cons m rest, n => by
      rw [NodeList.push, depthOkL, depthOkL_push c rest n, depthOkL, Bool.and_assoc]

theorem listHeight_push : ∀ (nl : NodeList) (n : Node),
    listHeight (nl.push n) = Nat.max (listHeight nl) (nodeHeight n)
  | .nil, n => by
      simp [NodeList.push, listHeight]
  | .cons m rest, n => by
      rw [NodeList.push, listHeight, listHeight_push rest n, listHeight]
      exact (Nat.max_assoc _ _ _).symm

theorem listAll_push (p : Node → Bool) : ∀ (nl : NodeList) (n : Node),
    listAll p (nl.push n) = (listAll p nl && nodeAll p n)
  | .nil, n => by
      simp [NodeList.push, listAll]
  | .cons m rest, n => by
      rw [NodeList.push, listAll, listAll_push p rest n, listAll, Bool.and_assoc]

/-! Composition lemmas for the build-state invariant. -/

theorem StP_of_eq (f : Nat) (st st' : BuildSt) (hs : st'.sources = st.sources)
    (hd : st'.destinations = st.destinations) (hv : st'.visited = st.visited) :
    StP f st st' := by
  refine ⟨[], by simp [hv], by simp [hs, hd], ?_, ?_, ?_, ?_, ?_, ?_, ?_⟩
  · rw [hv]; exact id
  · rw [hs]; exact id
  · rw [hd]; exact id
  · rw [hs]; exact Nat.le_max_left _ _
  · rw [hd]; exact Nat.le_max_left _ _
  · rw [hs]; exact id
  · rw [hd]; exact id

theorem StP_trans (f : Nat) {a b c : BuildSt} (h1 : StP f a b) (h2 : StP f b c) :
    StP f a c := by
  obtain ⟨n1, hv1, he1, hn1, hds1, hdd1, hhs1, hhd1, hws1, hwd1⟩ := h1
  obtain ⟨n2, hv2, he2, hn2, hds2, hdd2, hhs2, hhd2, hws2, hwd2⟩ := h2
  refine ⟨n1 ++ n2, ?_, ?_, ?_, fun h => hds2 (hds1 h), fun h => hdd2 (hdd1 h),
    ?_, ?_, fun h => hws2 (hws1 h), fun h => hwd2 (hwd1 h)⟩
  · rw [hv2, hv1, List.append_assoc]
  · rw [he2, he1, add_assoc, ← Multiset.coe_add]
  · intro h
    exact hn2 (hn1 h)
  · exact le_trans hhs2 (Nat.max_le.mpr ⟨hhs1, Nat.le_max_right _ _⟩)
  · exact le_trans hhd2 (Nat.max_le.mpr ⟨hhd1, Nat.le_max_right _ _⟩)

theorem StP_push_src (f : Nat) (st : BuildSt) (out : Node × List Val × Sess)
    (rel : String) (hout : TrP f st.visited out) :
    StP f st
      { st with
        sources := st.sources.push (setRel out.1 rel)
        visited := out.2.1
        sess := out.2.2 } := by
  obtain ⟨new, hv, hexp, hnd, hdep, hht, hwarn⟩ := hout
  refine ⟨new, by simpa using hv, ?_, by simpa using hnd, ?_, ?_, ?_, ?_, ?_, ?_⟩
  · simp only [listExpM_push, nodeExpM_setRel, hexp]
    rw [add_right_comm]
  · intro h
    simp only [depthOkL_push, depthOkB_setRel]
    simp [h, hdep]
  · exact id
  · simp only [listHeight_push, nodeHeight_setRel]
    exact Nat.max_le.mpr ⟨Nat.le_max_left _ _, le_trans hht (Nat.le_max_right _ _)⟩
  · exact Nat.le_max_left _ _
  · intro h
    simp only [listAll_push, nodeAll_warnedLeafOk_setRel]
    simp [h, hwarn]
  · exact id

theorem StP_push_dst (f : Nat) (st : BuildSt) (out : Node × List Val × Sess)
    (rel : String) (hout : TrP f st.visited out) :
    StP f st
      { st with
        destinations := st.destinations.push (setRel out.1 rel)
        visited := out.2.1
        sess := out.2.2 } := by
  obtain ⟨new, hv, hexp, hnd, hdep, hht, hwarn⟩ := hout
  refine ⟨new, by simpa using hv, ?_, by simpa using hnd, ?_, ?_, ?_, ?_, ?_, ?_⟩
  · simp only [listExpM_push, nodeExpM_setRel, hexp]
    rw [add_assoc]
  · exact id
  · intro h
    simp only [depthOkL_push, depthOkB_setRel]
    simp [h, hdep]
  · exact Nat.le_max_left _ _
  · simp only [listHeight_push, nodeHeight_setRel]
    exact Nat.max_le.mpr ⟨Nat.le_max_left _ _, le_trans hht (Nat.le_max_right _ _)⟩
  · exact id
  · intro h
    simp only [listAll_push, nodeAll_warnedLeafOk_setRel]
    simp [h, hwarn]


theorem traceChildren_spec (f : Nat) (tr : Val → List Val → Sess → Node × List Val × Sess)
    (htr : ∀ l v s, TrP f v (tr l v s)) (rel : String) (flag : Bool) :
    ∀ (lots : List Val) (st : BuildSt), StP f st (traceChildren tr rel flag lots st)
  | [], st => StP_of_eq f st _ rfl rfl rfl
  | l :: rest, st => by
      rw [traceChildren]
      refine StP_trans f ?_ (traceChildren_spec f tr htr rel flag rest _)
      by_cases hl : truthy l = true
      · rw [if_pos hl]
        cases flag
        · rw [if_neg (by simp)]
          exact StP_push_dst f st _ rel (htr l st.visited st.sess)
        · rw [if_pos rfl]
          exact StP_push_src f st _ rel (htr l st.visited st.sess)
      · rw [if_neg hl]
        exact StP_of_eq f st st rfl rfl rfl

theorem transferSrcs_spec (f : Nat) (tr : Val → List Val → Sess → Node × List Val × Sess)
    (htr : ∀ l v s, TrP f v (tr l v s)) (lot : Val) :
    ∀ (rows : List Row) (st : BuildSt), StP f st (transferSrcs tr lot rows st)
  | [], st => StP_of_eq f st _ rfl rfl rfl
  | strow :: rest, st => by
      rw [transferSrcs]
      refine StP_trans f ?_ (transferSrcs_spec f tr htr lot rest _)
      by_cases hl : (truthy (rowGet strow "Lot No_" .nil) &&
          (rowGet strow "Lot No_" .nil != lot)) = true
      · rw [if_pos hl]
        exact StP_push_src f st _ "Transferred from" (htr _ st.visited st.sess)
      · rw [if_neg hl]
        exact StP_of_eq f st st rfl rfl rfl

theorem outputRecs_spec (f : Nat) (tr : Val → List Val → Sess → Node × List Val × Sess)
    (htr : ∀ l v s, TrP f v (tr l v s)) (df : List Row) (lot : Val) :
    ∀ (recs : List Row) (st : BuildSt), StP f st (outputRecs tr df lot recs st)
  | [], st => StP_of_eq f st _ rfl rfl rfl
  | r :: rest, st => by
      rw [outputRecs]
      refine StP_trans f ?_ (outputRecs_spec f tr htr df lot rest _)
      by_cases hpo : truthy (rowGet r "Prod_ Order No_" .nil) = true
      · rw [if_pos hpo]
        refine StP_trans f (StP_of_eq f st _ rfl rfl rfl)
          (traceChildren_spec f tr htr "Consumed to produce this lot" true _ _)
      · rw [if_neg hpo]
        exact StP_of_eq f st st rfl rfl rfl

theorem consumptionRecs_spec (f : Nat)
    (tr : Val → List Val → Sess → Node × List Val × Sess)
    (htr : ∀ l v s, TrP f v (tr l v s)) (df : List Row) (lot : Val) :
    ∀ (recs : List Row) (st : BuildSt), StP f st (consumptionRecs tr df lot recs st)
  | [], st => StP_of_eq f st _ rfl rfl rfl
  | r :: rest, st => by
      rw [consumptionRecs]
      refine StP_trans f ?_ (consumptionRecs_spec f tr htr df lot rest _)
      by_cases hpo : truthy (rowGet r "Prod_ Order No_" .nil) = true
      · rw [if_pos hpo]
        refine StP_trans f (StP_of_eq f st _ rfl rfl rfl)
          (traceChildren_spec f tr htr "Produced by consuming this lot" false _ _)
      · rw [if_neg hpo]
        exact StP_of_eq f st st rfl rfl rfl

theorem transferRecs_spec (f : Nat)
    (tr : Val → List Val → Sess → Node × List Val × Sess)
    (htr : ∀ l v s, TrP f v (tr l v s)) (df : List Row) (lot : Val) :
    ∀ (recs : List Row) (st : BuildSt), StP f st (transferRecs tr df lot recs st)
  | [], st => StP_of_eq f st _ rfl rfl rfl
  | r :: rest, st => by
      rw [transferRecs]
      refine StP_trans f ?_ (transferRecs_spec f tr htr df lot rest _)
      refine StP_trans f ?_ (transferSrcs_spec f tr htr lot _ _)
      refine StP_trans f (StP_of_eq f st _ rfl rfl rfl) ?_
      by_cases hd : (truthy (rowGet r "Lot Dest" .nil) &&
          (rowGet r "Lot Dest" .nil != lot)) = true
      · rw [if_pos hd]
        exact StP_push_dst f _ _ "Transferred to" (htr _ _ _)
      · rw [if_neg hd]
        exact StP_of_eq f _ _ rfl rfl rfl

/-- The three stages of one activation respect the build-state invariant. -/
theorem chain3_spec (f : Nat) (tr : Val → List Val → Sess → Node × List Val × Sess)
    (htr : ∀ l v s, TrP f v (tr l v s)) (df : List Row) (lot : Val)
    (lotData : List Row) (st0 : BuildSt) : StP f st0 (chain3 tr df lot lotData st0) :=
  StP_trans f (StP_trans f (outputRecs_spec f tr htr df lot _ _)
    (consumptionRecs_spec f tr htr df lot _ _)) (transferRecs_spec f tr htr df lot _ _)

/-- The invariant of the non-leaf body of `trace_lot_origin`, for any child
tracer satisfying the invariant one budget level down. -/
theorem trace_body_spec (f : Nat) (tr : Val → List Val → Sess → Node × List Val × Sess)
    (htr : ∀ l v s, TrP f v (tr l v s)) (df : List Row) (lot : Val)
    (lotData : List Row) (pts : List String) (v : List Val) (s2 : Sess)
    (hmem : lot ∉ v) :
    TrP (f + 1) v (traceBody tr df lot lotData pts (v ++ [lot]) s2) := by
  unfold traceBody
  obtain ⟨new, hv, hexp, hnd, hdepS, hdepD, hhtS, hhtD, hwS, hwD⟩ :=
    chain3_spec f tr htr df lot lotData
      ⟨.nil, .nil, baseDetails (lotData.headD []), v ++ [lot], s2⟩
  set st3 := chain3 tr df lot lotData
    ⟨.nil, .nil, baseDetails (lotData.headD []), v ++ [lot], s2⟩ with hst3
  simp only at hv hexp hnd hdepS hdepD hhtS hhtD hwS hwD
  have hS := hdepS rfl
  have hD := hdepD rfl
  have hwS2 := hwS rfl
  have hwD2 := hwD rfl
  simp only [listExpM, Multiset.empty_eq_zero, zero_add] at hexp
  simp only [listHeight, Nat.zero_max] at hhtS hhtD
  refine ⟨lot :: new, ?_, ?_, ?_, ?_, ?_, ?_⟩
  · simpa [List.append_assoc] using hv
  · show nodeExpM (.mk lot Option.none pts st3.sources st3.destinations _ _ Option.none) = _
    rw [nodeExpM, if_pos rfl]
    rw [add_assoc, hexp]
    simp
  · intro hnv
    have hvl : (v ++ [lot]).Nodup := by
      simp [List.nodup_append, hnv, hmem]
    simpa using hnd hvl
  · show depthOkB (f + 1)
      (.mk lot Option.none pts st3.sources st3.destinations _ _ Option.none) = true
    rw [depthOkB]
    simp only [Bool.and_eq_true]
    exact ⟨hS, hD⟩
  · show nodeHeight
      (.mk lot Option.none pts st3.sources st3.destinations _ _ Option.none) ≤ f + 1 + 1
    rw [nodeHeight]
    have hmax : Nat.max (listHeight st3.sources) (listHeight st3.destinations) ≤ f + 1 :=
      Nat.max_le.mpr ⟨hhtS, hhtD⟩
    omega
  · show nodeAll warnedLeafOk
      (.mk lot Option.none pts st3.sources st3.destinations _ _ Option.none) = true
    rw [nodeAll]
    simp only [Bool.and_eq_true]
    exact ⟨⟨rfl, hwS2⟩, hwD2⟩

/-- The traversal invariant of `trace_lot_origin`: visited grows exactly by
the expanded lots of the returned tree, distinctness of `visited` is
preserved, and the tree obeys the depth-budget discipline, the height bound
and the warned-nodes-are-leaves property. -/
theorem trace_spec (df : List Row) :
    ∀ (f : Nat) (lot : Val) (v : List Val) (s : Sess), TrP f v (trace df f lot v s)
  | 0, lot, v, s => by
      refine ⟨[], by simp [trace], ?_, by simp [trace], ?_, ?_, ?_⟩ <;>
        simp [trace, warnLeaf, nodeExpM, listExpM, depthOkB, depthOkL, nodeHeight,
          listHeight, nodeAll, listAll, warnedLeafOk, NodeList.isNil, Node.warning,
          Node.sources, Node.destinations]
  | f + 1, lot, v, s => by
      by_cases hmem : lot ∈ v
      · refine ⟨[], by simp [trace, hmem], ?_, by simp [trace, hmem], ?_, ?_, ?_⟩ <;>
          simp [trace, hmem, warnLeaf, nodeExpM, listExpM, depthOkB, depthOkL,
            nodeHeight, listHeight, nodeAll, listAll, warnedLeafOk, NodeList.isNil,
            Node.warning, Node.sources, Node.destinations]
      · rw [trace, if_neg hmem]
        by_cases hemp : (get_lot_records df s lot).1.isEmpty = true
        · rw [if_pos hemp]
          refine ⟨[lot], rfl, ?_, ?_, ?_, ?_, ?_⟩ <;>
            simp [notFoundLeaf, nodeExpM, listExpM, depthOkB, depthOkL, nodeHeight,
              listHeight, nodeAll, listAll, warnedLeafOk, NodeList.isNil, Node.warning,
              Node.sources, Node.destinations, List.nodup_append, hmem]
        · rw [if_neg hemp]
          exact trace_body_spec f _ (trace_spec df f) df lot
            (get_lot_records df s lot).1
            (get_process_types_for_lot df (get_lot_records df s lot).2 lot).1 v
            (get_process_types_for_lot df (get_lot_records df s lot).2 lot).2 hmem

/-- C2: depth protection.  For every query, the returned tree obeys the
depth-budget discipline rooted at `maxDepth` — every node at depth exactly
`maxDepth` (budget 0) is a leaf carrying the `Max depth reached` warning
with no children, even if relations are unexplored — and the tree's height
is at most `maxDepth + 1` nodes, so no node lies deeper than `maxDepth`. -/
theorem c2_depth_bound (df : List Row) (lot : Val) (maxDepth : Nat) (s : Sess) :
    depthOkB maxDepth ((get_lot_lineage df lot maxDepth s).1.tree) = true ∧
    nodeHeight ((get_lot_lineage df lot maxDepth s).1.tree) ≤ maxDepth + 1 := by
  obtain ⟨new, hv, hexp, hnd, hdep, hht, hwarn⟩ := trace_spec df maxDepth lot [] s
  exact ⟨hdep, hht⟩

/-- C1 (amended): expansion happens at most once per lot.  For every query,
`total_lots_traced` equals the cardinality of the visited set; every warned
node of the tree is a leaf (no second expansion ever happens); no lot
appears as an expanded (warning-free) node more than once; and a call on an
already-visited lot with depth budget remaining returns the already-visited
leaf unchanged (with the budget exhausted, the max-depth warning wins
instead — see the counterexample). -/
theorem c1_expansion_invariants (df : List Row) (lot : Val) (maxDepth : Nat) (s : Sess) :
    ((get_lot_lineage df lot maxDepth s).1.totalLotsTraced
      = ((trace df maxDepth lot [] s).2.1).toFinset.card) ∧
    nodeAll warnedLeafOk ((get_lot_lineage df lot maxDepth s).1.tree) = true ∧
    (∀ L : Val, (nodeExpM ((get_lot_lineage df lot maxDepth s).1.tree)).count L ≤ 1) ∧
    (∀ (f : Nat) (l : Val) (vis : List Val) (s' : Sess), l ∈ vis → f ≠ 0 →
      trace df f l vis s' =
        (warnLeaf l "Already visited" (get_process_types_for_lot df s' l).1, vis,
         (get_process_types_for_lot df s' l).2)) := by
  obtain ⟨new, hv, hexp, hnd, hdep, hht, hwarn⟩ := trace_spec df maxDepth lot [] s
  have hnodup : (trace df maxDepth lot [] s).2.1.Nodup := hnd List.nodup_nil
  refine ⟨?_, hwarn, ?_, ?_⟩
  · show (trace df maxDepth lot [] s).2.1.length = _
    exact (List.toFinset_card_of_nodup hnodup).symm
  · intro L
    show (nodeExpM (trace df maxDepth lot [] s).1).count L ≤ 1
    rw [hexp]
    have hnew : new.Nodup := by
      rw [hv] at hnodup
      simpa using hnodup
    rw [Multiset.coe_count]
    exact List.nodup_iff_count_le_one.mp hnew L
  · intro f l vis s' hmem hf
    obtain ⟨g, rfl⟩ : ∃ g, f = g + 1 :=
      ⟨f - 1, (Nat.succ_pred_eq_of_pos (Nat.pos_of_ne_zero hf)).symm⟩
    rw [trace, if_pos hmem]

/-- Witness for the conditional already-visited clause of the C1 theorem. -/
theorem c1_witness :
    (Val.str "A") ∈ [Val.str "A"] ∧ (3 : Nat) ≠ 0 ∧
    trace dfMini 3 (.str "A") [.str "A"] emptySess =
      (warnLeaf (.str "A") "Already visited"
        (get_process_types_for_lot dfMini emptySess (.str "A")).1, [.str "A"],
       (get_process_types_for_lot dfMini emptySess (.str "A")).2) :=
  ⟨by decide, by decide,
   (c1_expansion_invariants dfMini (.str "A") 3 emptySess).2.2.2 3 (.str "A")
     [.str "A"] emptySess (by decide) (by decide)⟩

/-! Cache-coherence lemmas and the two-run determinism argument. -/

theorem coherent_empty (df : List Row) : Coherent df emptySess :=
  ⟨fun p hp => by simp [emptySess] at hp, fun p hp => by simp [emptySess] at hp⟩

theorem get_lot_records_coh (df : List Row) (s : Sess) (lot : Val) (h : Coherent df s) :
    (get_lot_records df s lot).1 = lotFilter df lot ∧
    Coherent df (get_lot_records df s lot).2 := by
  rcases hq : alookup s.lotCache lot with _ | r
  · simp only [get_lot_records, hq]
    refine ⟨by trivial, ?_, h.2⟩
    intro p hp
    rcases List.mem_append.mp hp with hp | hp
    · exact h.1 p hp
    · simp at hp
      subst hp
      rfl
  · simp only [get_lot_records, hq]
    exact ⟨(h.1 (lot, r) (alookup_mem hq)).symm ▸ rfl, h⟩

theorem get_prod_order_records_coh (df : List Row) (s : Sess) (po : Val)
    (h : Coherent df s) :
    (get_prod_order_records df s po).1 = prodFilter df po ∧
    Coherent df (get_prod_order_records df s po).2 := by
  rcases hq : alookup s.prodCache po with _ | r
  · simp only [get_prod_order_records, hq]
    refine ⟨by trivial, h.1, ?_⟩
    intro p hp
    rcases List.mem_append.mp hp with hp | hp
    · exact h.2 p hp
    · simp at hp
      subst hp
      rfl
  · simp only [get_prod_order_records, hq]
    exact ⟨(h.2 (po, r) (alookup_mem hq)).symm ▸ rfl, h⟩

theorem gpt_pair (df : List Row) (s s' : Sess) (lot : Val)
    (h : Coherent df s) (h' : Coherent df s') :
    (get_process_types_for_lot df s lot).1 = (get_process_types_for_lot df s' lot).1 ∧
    Coherent df (get_process_types_for_lot df s lot).2 ∧
    Coherent df (get_process_types_for_lot df s' lot).2 := by
  obtain ⟨he, hcoh⟩ := get_lot_records_coh df s lot h
  obtain ⟨he', hcoh'⟩ := get_lot_records_coh df s' lot h'
  simp only [get_process_types_for_lot, he, he']
  by_cases hemp : (lotFilter df lot).isEmpty = true <;>
    simp [hemp, hcoh, hcoh']

theorem traceChildren_rel (df : List Row)
    (tr : Val → List Val → Sess → Node × List Val × Sess)
    (htr : ∀ (l : Val) (vis : List Val) (ss ss' : Sess), Coherent df ss →
      Coherent df ss' → ORel df (tr l vis ss) (tr l vis ss'))
    (rel : String) (flag : Bool) :
    ∀ (lots : List Val) (st st' : BuildSt), BRel df st st' →
      BRel df (traceChildren tr rel flag lots st) (traceChildren tr rel flag lots st')
  | [], st, st', h => by
      rw [traceChildren, traceChildren]
      exact h
  | l :: rest, st, st', h => by
      obtain ⟨s1, d1, dt1, v1, se1⟩ := st
      obtain ⟨s2, d2, dt2, v2, se2⟩ := st'
      obtain ⟨hs, hd, hdt, hv, hc, hc'⟩ := h
      simp only at hs hd hdt hv hc hc'
      subst hs
      subst hd
      subst hdt
      subst hv
      rw [traceChildren, traceChildren]
      refine traceChildren_rel df tr htr rel flag rest _ _ ?_
      by_cases hl : truthy l = true
      · rw [if_pos hl, if_pos hl]
        obtain ⟨hn, hv2, hc2, hc2'⟩ := htr l v1 se1 se2 hc hc'
        cases flag
        · rw [if_neg (by simp), if_neg (by simp)]
          exact ⟨rfl, by rw [hn], rfl, hv2, hc2, hc2'⟩
        · rw [if_pos rfl, if_pos rfl]
          exact ⟨by rw [hn], rfl, rfl, hv2, hc2, hc2'⟩
      · rw [if_neg hl, if_neg hl]
        exact ⟨rfl, rfl, rfl, rfl, hc, hc'⟩

theorem transferSrcs_rel (df : List Row)
    (tr : Val → List Val → Sess → Node × List Val × Sess)
    (htr : ∀ (l : Val) (vis : List Val) (ss ss' : Sess), Coherent df ss →
      Coherent df ss' → ORel df (tr l vis ss) (tr l vis ss')) (lot : Val) :
    ∀ (rows : List Row) (st st' : BuildSt), BRel df st st' →
      BRel df (transferSrcs tr lot rows st) (transferSrcs tr lot rows st')
  | [], st, st', h => by
      rw [transferSrcs, transferSrcs]
      exact h
  | strow :: rest, st, st', h => by
      obtain ⟨s1, d1, dt1, v1, se1⟩ := st
      obtain ⟨s2, d2, dt2, v2, se2⟩ := st'
      obtain ⟨hs, hd, hdt, hv, hc, hc'⟩ := h
      simp only at hs hd hdt hv hc hc'
      subst hs
      subst hd
      subst hdt
      subst hv
      rw [transferSrcs, transferSrcs]
      refine transferSrcs_rel df tr htr lot rest _ _ ?_
      by_cases hl : (truthy (rowGet strow "Lot No_" .nil) &&
          (rowGet strow "Lot No_" .nil != lot)) = true
      · rw [if_pos hl, if_pos hl]
        obtain ⟨hn, hv2, hc2, hc2'⟩ := htr _ v1 se1 se2 hc hc'
        refine ⟨?_, ?_, ?_, ?_, hc2, hc2'⟩ <;> simp only [hn, hv2]
      · rw [if_neg hl, if_neg hl]
        exact ⟨rfl, rfl, rfl, rfl, hc, hc'⟩

theorem outputRecs_rel (df : List Row)
    (tr : Val → List Val → Sess → Node × List Val × Sess)
    (htr : ∀ (l : Val) (vis : List Val) (ss ss' : Sess), Coherent df ss →
      Coherent df ss' → ORel df (tr l vis ss) (tr l vis ss')) (lot : Val) :
    ∀ (recs : List Row) (st st' : BuildSt), BRel df st st' →
      BRel df (outputRecs tr df lot recs st) (outputRecs tr df lot recs st')
  | [], st, st', h => by
      rw [outputRecs, outputRecs]
      exact h
  | r :: rest, st, st', h => by
      obtain ⟨s1, d1, dt1, v1, se1⟩ := st
      obtain ⟨s2, d2, dt2, v2, se2⟩ := st'
      obtain ⟨hs, hd, hdt, hv, hc, hc'⟩ := h
      simp only at hs hd hdt hv hc hc'
      subst hs
      subst hd
      subst hdt
      subst hv
      rw [outputRecs, outputRecs]
      refine outputRecs_rel df tr htr lot rest _ _ ?_
      by_cases hpo : truthy (rowGet r "Prod_ Order No_" .nil) = true
      · rw [if_pos hpo, if_pos hpo]
        obtain ⟨hp, hcp⟩ := get_prod_order_records_coh df se1
          (rowGet r "Prod_ Order No_" .nil) hc
        obtain ⟨hp', hcp'⟩ := get_prod_order_records_coh df se2
          (rowGet r "Prod_ Order No_" .nil) hc'
        simp only []
        rw [hp, hp']
        exact traceChildren_rel df tr htr "Consumed to produce this lot" true _ _ _
          ⟨rfl, rfl, rfl, rfl, hcp, hcp'⟩
      · rw [if_neg hpo, if_neg hpo]
        exact ⟨rfl, rfl, rfl, rfl, hc, hc'⟩

theorem consumptionRecs_rel (df : List Row)
    (tr : Val → List Val → Sess → Node × List Val × Sess)
    (htr : ∀ (l : Val) (vis : List Val) (ss ss' : Sess), Coherent df ss →
      Coherent df ss' → ORel df (tr l vis ss) (tr l vis ss')) (lot : Val) :
    ∀ (recs : List Row) (st st' : BuildSt), BRel df st st' →
      BRel df (consumptionRecs tr df lot recs st) (consumptionRecs tr df lot recs st')
  | [], st, st', h => by
      rw [consumptionRecs, consumptionRecs]
      exact h
  | r :: rest, st, st', h => by
      obtain ⟨s1, d1, dt1, v1, se1⟩ := st
      obtain ⟨s2, d2, dt2, v2, se2⟩ := st'
      obtain ⟨hs, hd, hdt, hv, hc, hc'⟩ := h
      simp only at hs hd hdt hv hc hc'
      subst hs
      subst hd
      subst hdt
      subst hv
      rw [consumptionRecs, consumptionRecs]
      refine consumptionRecs_rel df tr htr lot rest _ _ ?_
      by_cases hpo : truthy (rowGet r "Prod_ Order No_" .nil) = true
      · rw [if_pos hpo, if_pos hpo]
        obtain ⟨hp, hcp⟩ := get_prod_order_records_coh df se1
          (rowGet r "Prod_ Order No_" .nil) hc
        obtain ⟨hp', hcp'⟩ := get_prod_order_records_coh df se2
          (rowGet r "Prod_ Order No_" .nil) hc'
        simp only []
        rw [hp, hp']
        exact traceChildren_rel df tr htr "Produced by consuming this lot" false _ _ _
          ⟨rfl, rfl, rfl, rfl, hcp, hcp'⟩
      · rw [if_neg hpo, if_neg hpo]
        exact ⟨rfl, rfl, rfl, rfl, hc, hc'⟩

theorem transferRecs_rel (df : List Row)
    (tr : Val → List Val → Sess → Node × List Val × Sess)
    (htr : ∀ (l : Val) (vis : List Val) (ss ss' : Sess), Coherent df ss →
      Coherent df ss' → ORel df (tr l vis ss) (tr l vis ss')) (lot : Val) :
    ∀ (recs : List Row) (st st' : BuildSt), BRel df st st' →
      BRel df (transferRecs tr df lot recs st) (transferRecs tr df lot recs st')
  | [], st, st', h => by
      rw [transferRecs, transferRecs]
      exact h
  | r :: rest, st, st', h => by
      obtain ⟨s1, d1, dt1, v1, se1⟩ := st
      obtain ⟨s2, d2, dt2, v2, se2⟩ := st'
      obtain ⟨hs, hd, hdt, hv, hc, hc'⟩ := h
      simp only at hs hd hdt hv hc hc'
      subst hs
      subst hd
      subst hdt
      subst hv
      rw [transferRecs, transferRecs]
      refine transferRecs_rel df tr htr lot rest _ _ ?_
      refine transferSrcs_rel df tr htr lot _ _ _ ?_
      by_cases hd2 : (truthy (rowGet r "Lot Dest" .nil) &&
          (rowGet r "Lot Dest" .nil != lot)) = true
      · rw [if_pos hd2, if_pos hd2]
        obtain ⟨hn, hv2, hc2, hc2'⟩ := htr _ v1 se1 se2 hc hc'
        refine ⟨?_, ?_, ?_, ?_, hc2, hc2'⟩ <;> simp only [hn, hv2]
      · rw [if_neg hd2, if_neg hd2]
        exact ⟨rfl, rfl, rfl, rfl, hc, hc'⟩

theorem chain3_rel (df : List Row)
    (tr : Val → List Val → Sess → Node × List Val × Sess)
    (htr : ∀ (l : Val) (vis : List Val) (ss ss' : Sess), Coherent df ss →
      Coherent df ss' → ORel df (tr l vis ss) (tr l vis ss'))
    (lot : Val) (lotData : List Row) (st st' : BuildSt) (h : BRel df st st') :
    BRel df (chain3 tr df lot lotData st) (chain3 tr df lot lotData st') :=
  transferRecs_rel df tr htr lot _ _ _
    (consumptionRecs_rel df tr htr lot _ _ _
      (outputRecs_rel df tr htr lot _ _ _ h))

theorem traceBody_rel (df : List Row)
    (tr : Val → List Val → Sess → Node × List Val × Sess)
    (htr : ∀ (l : Val) (vis : List Val) (ss ss' : Sess), Coherent df ss →
      Coherent df ss' → ORel df (tr l vis ss) (tr l vis ss'))
    (lot : Val) (lotData : List Row) (pts : List String) (v1 : List Val)
    (s2 s2' : Sess) (hc : Coherent df s2) (hc' : Coherent df s2') :
    ORel df (traceBody tr df lot lotData pts v1 s2)
      (traceBody tr df lot lotData pts v1 s2') := by
  unfold traceBody
  obtain ⟨hs, hd, hdt, hv, hcc, hcc'⟩ := chain3_rel df tr htr lot lotData
    ⟨.nil, .nil, baseDetails (lotData.headD []), v1, s2⟩
    ⟨.nil, .nil, baseDetails (lotData.headD []), v1, s2'⟩
    ⟨rfl, rfl, rfl, rfl, hc, hc'⟩
  refine ⟨?_, ?_, hcc, hcc'⟩
  · simp only []
    rw [hs, hd, hdt]
  · simp only []
    exact hv

/-- Two runs of `trace_lot_origin` with the same arguments from any two
coherent cache states produce the same node and the same visited list, and
leave both cache states coherent. -/
theorem trace_rel (df : List Row) :
    ∀ (f : Nat) (lot : Val) (vis : List Val) (s s' : Sess),
      Coherent df s → Coherent df s' →
      ORel df (trace df f lot vis s) (trace df f lot vis s')
  | 0, lot, vis, s, s', hc, hc' => by
      obtain ⟨hp, h2, h2'⟩ := gpt_pair df s s' lot hc hc'
      rw [trace, trace]
      refine ⟨?_, rfl, h2, h2'⟩
      simp only []
      rw [hp]
  | f + 1, lot, vis, s, s', hc, hc' => by
      by_cases hmem : lot ∈ vis
      · obtain ⟨hp, h2, h2'⟩ := gpt_pair df s s' lot hc hc'
        rw [trace, trace, if_pos hmem, if_pos hmem]
        refine ⟨?_, rfl, h2, h2'⟩
        simp only []
        rw [hp]
      · rw [trace, trace, if_neg hmem, if_neg hmem]
        obtain ⟨hl1, hlc⟩ := get_lot_records_coh df s lot hc
        obtain ⟨hl1', hlc'⟩ := get_lot_records_coh df s' lot hc'
        simp only []
        rw [hl1, hl1']
        by_cases hemp : (lotFilter df lot).isEmpty = true
        · rw [if_pos hemp, if_pos hemp]
          exact ⟨rfl, rfl, hlc, hlc'⟩
        · rw [if_neg hemp, if_neg hemp]
          obtain ⟨hp, hg2, hg2'⟩ := gpt_pair df (get_lot_records df s lot).2
            (get_lot_records df s' lot).2 lot hlc hlc'
          rw [hp]
          exact traceBody_rel df _ (fun l vv ss ss' a b => trace_rel df f l vv ss ss' a b)
            lot (lotFilter df lot)
            (get_process_types_for_lot df (get_lot_records df s' lot).2 lot).1
            (vis ++ [lot]) _ _ hg2 hg2'

/-- C9: determinism across repeated calls.  Running `get_lot_lineage` twice
with identical arguments on one tracker — the second call hitting the caches
the first call filled — produces the identical result record (same query
lot, same count, structurally identical tree). -/
theorem c9_repeat_call_deterministic (df : List Row) (lot : Val) (maxDepth : Nat) :
    (get_lot_lineage df lot maxDepth (get_lot_lineage df lot maxDepth emptySess).2).1 =
    (get_lot_lineage df lot maxDepth emptySess).1 := by
  have h1 := trace_rel df maxDepth lot [] emptySess emptySess
    (coherent_empty df) (coherent_empty df)
  have hs1 : Coherent df (get_lot_lineage df lot maxDepth emptySess).2 := h1.2.2.1
  obtain ⟨hn, hv, _, _⟩ := trace_rel df maxDepth lot []
    (get_lot_lineage df lot maxDepth emptySess).2 emptySess hs1 (coherent_empty df)
  simp only [get_lot_lineage] at hn hv ⊢
  rw [hn, hv]
